import Mathlib

/-!
Verification of the DJZ-ZeroEDIT deterministic edit-prompt generator
(ComfyUI-ZeroEDIT-nodes). Shallow embedding of:

* `src/DJZ_ZeroEDIT.py` — `edit_hash`, `hash_to_index`, `load_profile`,
  `calculate_combinations`, `generate_edit_prompt`, `DJZZeroEDIT.generate`;
* `src/Skill/profile_stats.py` — `hash_coords`, `generate_prompt`;
* `src/Skill/validate_profile.py` — `validate_pools`, `validate_templates`,
  `calculate_combinations`, `generate_test_output`.

Machine integers are mapped to `Nat`/`Int` with explicit reduction mod 2^32,
Python strings to `List Char`/`String`, Python dicts (insertion-ordered) to
association lists, and fallible Python code to `Except`/`Option`.

The external hash backends that the source calls (`xxhash.xxh32` from the
xxhash package, `hashlib.md5` from the standard library) are embedded as the
published algorithms they implement: XXH32 and MD5 (RFC 1321), both over byte
lists with 32-bit modular arithmetic.
-/

namespace ZeroEDIT

/-! ## 32-bit modular arithmetic helpers -/

def M32 : Nat := 4294967296

def mask32 (x : Nat) : Nat := x % M32

/-- Left-rotation of a 32-bit word (argument assumed `< 2^32`). -/
def rotl32 (x n : Nat) : Nat := mask32 ((x <<< n) ||| (x >>> (32 - n)))

/-! ## XXH32 (the algorithm implemented by `xxhash.xxh32`)

`edit_hash` in `src/DJZ_ZeroEDIT.py` calls `xxhash.xxh32(seed=seed &
0xFFFFFFFF)` and updates it with the coordinates packed as little-endian
signed 32-bit integers. We embed the XXH32 algorithm itself over a byte
list. -/

def xxhP1 : Nat := 2654435761
def xxhP2 : Nat := 2246822519
def xxhP3 : Nat := 3266489917
def xxhP4 : Nat := 668265263
def xxhP5 : Nat := 374761393

/-- A 32-bit word from four little-endian bytes. -/
def word32LE (b0 b1 b2 b3 : Nat) : Nat :=
  b0 + 256 * b1 + 65536 * b2 + 16777216 * b3

/-- One XXH32 accumulator round: `rotl(acc + lane * P2, 13) * P1`. -/
def xxh32Round (acc lane : Nat) : Nat :=
  mask32 (rotl32 (mask32 (acc + lane * xxhP2)) 13 * xxhP1)

/-- The XXH32 stripe loop: consume 16-byte stripes while at least 16 bytes
remain, updating the four accumulators; return the accumulators and the
remaining bytes. -/
def xxh32Stripes : Nat → Nat → Nat → Nat → List Nat →
    Nat × Nat × Nat × Nat × List Nat
  | v1, v2, v3, v4, b0 :: b1 :: b2 :: b3 :: b4 :: b5 :: b6 :: b7 ::
      b8 :: b9 :: b10 :: b11 :: b12 :: b13 :: b14 :: b15 :: rest =>
    xxh32Stripes
      (xxh32Round v1 (word32LE b0 b1 b2 b3))
      (xxh32Round v2 (word32LE b4 b5 b6 b7))
      (xxh32Round v3 (word32LE b8 b9 b10 b11))
      (xxh32Round v4 (word32LE b12 b13 b14 b15)) rest
  | v1, v2, v3, v4, rest => (v1, v2, v3, v4, rest)

/-- The XXH32 4-byte tail loop: `h = rotl(h + word * P3, 17) * P4`. -/
def xxh32Tail4 : Nat → List Nat → Nat × List Nat
  | h, b0 :: b1 :: b2 :: b3 :: rest =>
    xxh32Tail4 (mask32 (rotl32 (mask32 (h + word32LE b0 b1 b2 b3 * xxhP3)) 17 * xxhP4)) rest
  | h, rest => (h, rest)

/-- The XXH32 byte tail loop: `h = rotl(h + byte * P5, 11) * P1`. -/
def xxh32Tail1 : Nat → List Nat → Nat
  | h, [] => h
  | h, b :: rest =>
    xxh32Tail1 (mask32 (rotl32 (mask32 (h + b * xxhP5)) 11 * xxhP1)) rest

/-- The XXH32 avalanche finalization. -/
def xxh32Avalanche (h : Nat) : Nat :=
  let h1 := h ^^^ (h >>> 15)
  let h2 := mask32 (h1 * xxhP2)
  let h3 := h2 ^^^ (h2 >>> 13)
  let h4 := mask32 (h3 * xxhP3)
  h4 ^^^ (h4 >>> 16)

/-- XXH32 of a byte list with a 32-bit seed (seed assumed `< 2^32`). -/
def xxh32 (seed : Nat) (data : List Nat) : Nat :=
  let len := data.length
  if 16 ≤ len then
    match xxh32Stripes (mask32 (seed + xxhP1 + xxhP2)) (mask32 (seed + xxhP2))
        (mask32 seed) (mask32 (seed + (M32 - xxhP1))) data with
    | (v1, v2, v3, v4, rest) =>
      let h0 := mask32 (rotl32 v1 1 + rotl32 v2 7 + rotl32 v3 12 + rotl32 v4 18)
      match xxh32Tail4 (mask32 (h0 + len)) rest with
      | (h1, rest1) => xxh32Avalanche (xxh32Tail1 h1 rest1)
  else
    match xxh32Tail4 (mask32 (seed + xxhP5 + len)) data with
    | (h1, rest1) => xxh32Avalanche (xxh32Tail1 h1 rest1)

/-! ## struct.pack and `edit_hash` (src/DJZ_ZeroEDIT.py lines 99-111)

`struct.pack('<' + 'i' * len(coords), *coords)` packs each coordinate as a
little-endian signed 32-bit integer and raises `struct.error` when a value
is outside `[-2^31, 2^31 - 1]`. -/

/-- The four little-endian bytes of a 32-bit word. -/
def bytesOfWord32LE (u : Nat) : List Nat :=
  [u % 256, u / 256 % 256, u / 65536 % 256, u / 16777216 % 256]

/-- Two's-complement little-endian encoding of an integer reduced mod 2^32. -/
def int32ToBytesLE (x : Int) : List Nat :=
  bytesOfWord32LE (x.emod (M32 : Int)).toNat

def int32Min : Int := -2147483648

def int32Max : Int := 2147483647

/-- `struct.pack('<i', x)`: the int32 bytes, or `none` (struct.error) when
`x` is out of the signed 32-bit range. -/
def packInt32 (x : Int) : Option (List Nat) :=
  if int32Min ≤ x ∧ x ≤ int32Max then some (int32ToBytesLE x) else none

/-- `struct.pack('<' + 'i'*n, *coords)`: all coordinates packed, or `none`
when any is out of range. -/
def packInt32s : List Int → Option (List Nat)
  | [] => some []
  | x :: xs => do
    let b ← packInt32 x
    let rest ← packInt32s xs
    pure (b ++ rest)

/-- Python exceptions that the embedded fragments can raise. -/
inductive PyErr where
  /-- `struct.error` from `struct.pack` on an out-of-range coordinate. -/
  | structError : PyErr
  /-- `ZeroDivisionError` from `h % 0` (empty template list or empty pool). -/
  | zeroDivisionError : PyErr
  /-- `KeyError` from `str.format` on a placeholder with no component. -/
  | keyError (key : String) : PyErr
  /-- A template outside the simple `\x7bidentifier\x7d` grammar that this
  embedding supports (Python `str.format` would apply its full
  format-mini-language; the profiles this system specifies use only simple
  named placeholders). -/
  | unsupportedTemplate : PyErr
deriving DecidableEq, Repr

/-- Python `seed & 0xFFFFFFFF` for an arbitrary integer seed. -/
def pySeedMask (seed : Int) : Nat := (seed.emod (M32 : Int)).toNat

/-- `edit_hash(seed, *coords)` from src/DJZ_ZeroEDIT.py lines 99-106:
xxh32 seeded with `seed & 0xFFFFFFFF` over the packed coordinates;
`struct.error` when a coordinate is out of int32 range. -/
def edit_hash (seed : Int) (coords : List Int) : Except PyErr Nat :=
  match packInt32s coords with
  | none => .error .structError
  | some bytes => .ok (xxh32 (pySeedMask seed) bytes)

/-- `hash_to_index(h, pool_size)` from src/DJZ_ZeroEDIT.py lines 109-111.
Call sites guard `pool_size = 0` (where Python `%` raises
`ZeroDivisionError`) before using it. -/
def hash_to_index (h pool_size : Nat) : Nat := h % pool_size

/-! ## MD5 (RFC 1321, the algorithm implemented by `hashlib.md5`)

`src/Skill/validate_profile.py` (`generate_test_output`) and the xxhash-less
fallback of `src/Skill/profile_stats.py` select items with
`int(hashlib.md5(text).hexdigest(), 16)`. -/

def md5K : List Nat :=
  [3614090360, 3905402710, 606105819, 3250441966, 4118548399, 1200080426,
   2821735955, 4249261313, 1770035416, 2336552879, 4294925233, 2304563134,
   1804603682, 4254626195, 2792965006, 1236535329, 4129170786, 3225465664,
   643717713, 3921069994, 3593408605, 38016083, 3634488961, 3889429448,
   568446438, 3275163606, 4107603335, 1163531501, 2850285829, 4243563512,
   1735328473, 2368359562, 4294588738, 2272392833, 1839030562, 4259657740,
   2763975236, 1272893353, 4139469664, 3200236656, 681279174, 3936430074,
   3572445317, 76029189, 3654602809, 3873151461, 530742520, 3299628645,
   4096336452, 1126891415, 2878612391, 4237533241, 1700485571, 2399980690,
   4293915773, 2240044497, 1873313359, 4264355552, 2734768916, 1309151649,
   4149444226, 3174756917, 718787259, 3951481745]

def md5S : List Nat :=
  [7, 12, 17, 22, 7, 12, 17, 22, 7, 12, 17, 22, 7, 12, 17, 22,
   5, 9, 14, 20, 5, 9, 14, 20, 5, 9, 14, 20, 5, 9, 14, 20,
   4, 11, 16, 23, 4, 11, 16, 23, 4, 11, 16, 23, 4, 11, 16, 23,
   6, 10, 15, 21, 6, 10, 15, 21, 6, 10, 15, 21, 6, 10, 15, 21]

/-- Bitwise NOT on a 32-bit word. -/
def not32 (x : Nat) : Nat := x ^^^ 4294967295

/-- The MD5 nonlinear function for round `i`. -/
def md5F (i b c d : Nat) : Nat :=
  if i < 16 then (b &&& c) ||| (not32 b &&& d)
  else if i < 32 then (d &&& b) ||| (not32 d &&& c)
  else if i < 48 then b ^^^ c ^^^ d
  else c ^^^ (b ||| not32 d)

/-- The MD5 message-word index for round `i`. -/
def md5G (i : Nat) : Nat :=
  if i < 16 then i
  else if i < 32 then (5 * i + 1) % 16
  else if i < 48 then (3 * i + 5) % 16
  else (7 * i) % 16

/-- One MD5 round on state `(a, b, c, d)` with message words `mw`. -/
def md5Step (mw : List Nat) (st : Nat × Nat × Nat × Nat) (i : Nat) :
    Nat × Nat × Nat × Nat :=
  match st with
  | (a, b, c, d) =>
    let f := mask32 (md5F i b c d + a + md5K.getD i 0 + mw.getD (md5G i) 0)
    (d, mask32 (b + rotl32 f (md5S.getD i 0)), b, c)

/-- Process one 512-bit chunk (16 words) of the padded message. -/
def md5Chunk (st : Nat × Nat × Nat × Nat) (mw : List Nat) :
    Nat × Nat × Nat × Nat :=
  match st, (List.range 64).foldl (md5Step mw) st with
  | (a0, b0, c0, d0), (a, b, c, d) =>
    (mask32 (a0 + a), mask32 (b0 + b), mask32 (c0 + c), mask32 (d0 + d))

/-- Split a byte list into 32-bit little-endian words. -/
def bytesToWords32LE : List Nat → List Nat
  | b0 :: b1 :: b2 :: b3 :: rest => word32LE b0 b1 b2 b3 :: bytesToWords32LE rest
  | _ => []

/-- Split a byte list into 64-byte chunks. Structural recursion on a fuel
bounded by the list length (each step consumes at least one byte, so the
fuel is never exhausted before the list is). -/
def chunks64Fuel : Nat → List Nat → List (List Nat)
  | 0, _ => []
  | _ + 1, [] => []
  | fuel + 1, b :: rest =>
    (b :: rest).take 64 :: chunks64Fuel fuel ((b :: rest).drop 64)

def chunks64 (l : List Nat) : List (List Nat) := chunks64Fuel l.length l

/-- The eight little-endian bytes of a 64-bit word. -/
def bytes64LE (u : Nat) : List Nat :=
  [u % 256, u / 256 % 256, u / 65536 % 256, u / 16777216 % 256,
   u / 4294967296 % 256, u / 1099511627776 % 256,
   u / 281474976710656 % 256, u / 72057594037927936 % 256]

/-- MD5 padding: `0x80`, zeros to 56 mod 64, then the 64-bit little-endian
bit length. -/
def md5Pad (msg : List Nat) : List Nat :=
  let len := msg.length
  let z := (120 - (len + 1) % 64) % 64
  msg ++ [128] ++ List.replicate z 0 ++
    bytes64LE ((8 * len) % 18446744073709551616)

/-- The 16 MD5 digest bytes of a byte list. -/
def md5Bytes (msg : List Nat) : List Nat :=
  match (chunks64 (md5Pad msg)).foldl
      (fun st c => md5Chunk st (bytesToWords32LE c))
      (1732584193, 4023233417, 2562383102, 271733878) with
  | (a, b, c, d) =>
    bytesOfWord32LE a ++ bytesOfWord32LE b ++ bytesOfWord32LE c ++
      bytesOfWord32LE d

/-- `int(hashlib.md5(msg).hexdigest(), 16)`: the digest bytes read as a
big-endian number. -/
def md5Int (msg : List Nat) : Nat :=
  (md5Bytes msg).foldl (fun acc b => 256 * acc + b) 0

/-- `text.encode()` for the ASCII strings this system hashes (UTF-8 agrees
with code points below 128; all hashed strings here are decimal numbers and
separators). -/
def strBytes (s : String) : List Nat := s.data.map Char.toNat

/-! ## Template strings

The profile data model (spec section 3) has templates carrying named
placeholders of the form `\x7bidentifier\x7d`. The source renders them with
Python `str.format` and, on a `KeyError`, with a `str.replace` loop. We
parse a template into literal characters and placeholders; templates using
format constructs beyond plain named fields map to `unsupportedTemplate`. -/

def braceL : Char := '\x7b'

def braceR : Char := '\x7d'

/-- Word characters of the regex class `\w` and of Python identifiers, in
the ASCII range the profiles use. -/
def isWordChar (c : Char) : Bool := c.isAlphanum || c = '_'

/-- Split a leading run of word characters from the rest. -/
def spanWord : List Char → List Char × List Char
  | [] => ([], [])
  | c :: rest =>
    if isWordChar c then
      match spanWord rest with
      | (w, r) => (c :: w, r)
    else ([], c :: rest)

theorem spanWord_snd_le (l : List Char) : (spanWord l).2.length ≤ l.length := by
  induction l with
  | nil => simp [spanWord]
  | cons c rest ih =>
    simp only [spanWord]
    split
    · cases h : spanWord rest with
      | mk w r =>
        rw [h] at ih
        simpa [h] using Nat.le_succ_of_le ih
    · simp

/-- A parsed template piece: a literal character or a named placeholder. -/
inductive Part where
  | lit (c : Char) : Part
  | ph (name : String) : Part
deriving DecidableEq, Repr

/-- Parse a template into parts: fueled worker (each step consumes at
least one character, so any fuel above the length behaves alike; see
`parseTemplateFuel_congr`). -/
def parseTemplateFuel : Nat → List Char → Option (List Part)
  | 0, _ => none
  | _ + 1, [] => some []
  | fuel + 1, c :: rest =>
    if c = braceL then
      match spanWord rest with
      | (w, r) =>
        match r with
        | r0 :: r1 =>
          if r0 = braceR ∧ w ≠ [] then
            (parseTemplateFuel fuel r1).map (fun ps => Part.ph (String.mk w) :: ps)
          else none
        | [] => none
    else if c = braceR then none
    else (parseTemplateFuel fuel rest).map (fun ps => Part.lit c :: ps)

/-- Parse a template into parts. Literal characters may not be braces; a
placeholder is `\x7bword\x7d` with a non-empty word. Anything else
(including the `\x7b\x7b` escape and format specs) is unsupported. -/
def parseTemplate (l : List Char) : Option (List Part) :=
  parseTemplateFuel (l.length + 1) l

/-- Render parts, mapping each placeholder name through `f`. -/
def renderParts (f : String → String) : List Part → List Char
  | [] => []
  | .lit c :: rest => c :: renderParts f rest
  | .ph n :: rest => (f n).data ++ renderParts f rest

/-- The first placeholder (in template order) whose name has no binding:
where Python `str.format` raises its `KeyError`. -/
def firstMissing (m : List (String × String)) : List Part → Option String
  | [] => none
  | .lit _ :: rest => firstMissing m rest
  | .ph n :: rest =>
    if (m.lookup n).isSome then firstMissing m rest else some n

/-- `template.format(**m)` on a simple-grammar template. -/
def pyFormat (t : List Char) (m : List (String × String)) :
    Except PyErr (List Char) :=
  match parseTemplate t with
  | none => .error .unsupportedTemplate
  | some parts =>
    match firstMissing m parts with
    | some n => .error (.keyError n)
    | none => .ok (renderParts (fun n => (m.lookup n).getD "") parts)

/-- Fueled worker for `replaceAll` (each step consumes at least one
character; see `replaceAllFuel_congr`). -/
def replaceAllFuel (pat rep : List Char) : Nat → List Char → List Char
  | 0, l => l
  | _ + 1, [] => []
  | fuel + 1, c :: rest =>
    if pat ≠ [] ∧ pat.isPrefixOf (c :: rest) then
      rep ++ replaceAllFuel pat rep fuel ((c :: rest).drop pat.length)
    else c :: replaceAllFuel pat rep fuel rest

/-- Python `s.replace(pat, rep)`: replace every non-overlapping occurrence,
scanning left to right. (For the empty pattern Python would insert `rep`
between characters; every pattern used here is `\x7bkey\x7d`, which is
non-empty, and this model replaces nothing for an empty pattern.) -/
def replaceAll (pat rep : List Char) (l : List Char) : List Char :=
  replaceAllFuel pat rep l.length l

/-- Python `pat in s` for strings: substring containment. -/
def containsSub (pat : List Char) : List Char → Bool
  | [] => pat.isEmpty
  | c :: rest => pat.isPrefixOf (c :: rest) || containsSub pat rest

/-! ## The profile model (spec section 3)

`templates` is the JSON array of template strings; `pools` the JSON object
mapping pool names to entry lists, as an insertion-ordered association list
(Python dicts preserve insertion order, and iteration order determines
coordinate slots). -/

structure Profile where
  templates : List String
  pools : List (String × List String)
deriving DecidableEq, Repr

/-- `calculate_combinations` from src/DJZ_ZeroEDIT.py lines 87-92:
`total = len(templates); for pool in pools.values(): total *= len(pool)`. -/
def calculate_combinations (p : Profile) : Nat :=
  p.pools.foldl (fun total kv => total * kv.2.length) p.templates.length

/-- `calculate_combinations` from src/Skill/validate_profile.py lines
110-115 (same code, the validator tool's copy). -/
def vp_calculate_combinations (p : Profile) : Nat :=
  p.pools.foldl (fun total kv => total * kv.2.length) p.templates.length

/-! ## The core generator (src/DJZ_ZeroEDIT.py lines 118-150) -/

/-- The component loop of `generate_edit_prompt` (lines 138-141): for the
pool at 0-based position `i`, hash coordinate `(prompt_idx, i + 1)` and
select `pool[hash % len(pool)]`. Python `%` by zero raises
`ZeroDivisionError`. -/
def buildComponents (seed prompt_idx : Int) :
    Nat → List (String × List String) → Except PyErr (List (String × String))
  | _, [] => .ok []
  | i, (key, pool) :: rest => do
    let h ← edit_hash seed [prompt_idx, (i : Int) + 1]
    if hp : pool.length = 0 then .error .zeroDivisionError
    else do
      let comps ← buildComponents seed prompt_idx (i + 1) rest
      .ok ((key, pool.get ⟨hash_to_index h pool.length,
        Nat.mod_lt _ (Nat.pos_of_ne_zero hp)⟩) :: comps)

/-- The `except KeyError` fallback of `generate_edit_prompt` (lines
146-150): for each pool key, textually replace `\x7bkey\x7d` by
`components.get(key, "[key]")` in the template string. -/
def formatFallback (template : List Char) (pools : List (String × List String))
    (comps : List (String × String)) : List Char :=
  pools.foldl (fun t kv =>
    replaceAll (braceL :: kv.1.data ++ [braceR])
      ((comps.lookup kv.1).getD ("[" ++ kv.1 ++ "]")).data t) template

/-- `generate_edit_prompt(seed, prompt_idx, profile)` from
src/DJZ_ZeroEDIT.py lines 118-150. -/
def generate_edit_prompt (seed prompt_idx : Int) (p : Profile) :
    Except PyErr String := do
  let template_hash ← edit_hash seed [prompt_idx, 0]
  if ht : p.templates.length = 0 then .error .zeroDivisionError
  else do
    let template := p.templates.get ⟨hash_to_index template_hash p.templates.length,
      Nat.mod_lt _ (Nat.pos_of_ne_zero ht)⟩
    let comps ← buildComponents seed prompt_idx 0 p.pools
    match pyFormat template.data comps with
    | .ok s => .ok (String.mk s)
    | .error (.keyError _) => .ok (String.mk (formatFallback template.data p.pools comps))
    | .error e => .error e

/-! ## The stats tool's generator (src/Skill/profile_stats.py lines 30-63)

`hash_coords` uses xxh32 exactly as `edit_hash` when the xxhash package is
importable (`HAS_XXHASH`), and otherwise the md5 of
`f"\x7bseed\x7d:" + ":".join(str(c) for c in coords)`. -/

def joinSep (sep : String) : List String → String
  | [] => ""
  | [x] => x
  | x :: y :: rest => x ++ sep ++ joinSep sep (y :: rest)

/-- `hash_coords(seed, *coords)` from src/Skill/profile_stats.py lines
30-39, with the module-level `HAS_XXHASH` flag explicit. -/
def hash_coords (hasXxhash : Bool) (seed : Int) (coords : List Int) :
    Except PyErr Nat :=
  if hasXxhash then
    match packInt32s coords with
    | none => .error .structError
    | some bytes => .ok (xxh32 (pySeedMask seed) bytes)
  else
    .ok (md5Int (strBytes (toString seed ++ ":" ++ joinSep ":" (coords.map toString))))

/-- The component loop of `generate_prompt` (lines 52-55). -/
def psBuildComponents (hasXxhash : Bool) (seed idx : Int) :
    Nat → List (String × List String) → Except PyErr (List (String × String))
  | _, [] => .ok []
  | i, (key, pool) :: rest => do
    let h ← hash_coords hasXxhash seed [idx, (i : Int) + 1]
    if hp : pool.length = 0 then .error .zeroDivisionError
    else do
      let comps ← psBuildComponents hasXxhash seed idx (i + 1) rest
      .ok ((key, pool.get ⟨h % pool.length,
        Nat.mod_lt _ (Nat.pos_of_ne_zero hp)⟩) :: comps)

/-- `generate_prompt(seed, idx, profile)` from src/Skill/profile_stats.py
lines 42-63. -/
def generate_prompt (hasXxhash : Bool) (seed idx : Int) (p : Profile) :
    Except PyErr String := do
  let template_hash ← hash_coords hasXxhash seed [idx, 0]
  if ht : p.templates.length = 0 then .error .zeroDivisionError
  else do
    let template := p.templates.get ⟨template_hash % p.templates.length,
      Nat.mod_lt _ (Nat.pos_of_ne_zero ht)⟩
    let comps ← psBuildComponents hasXxhash seed idx 0 p.pools
    match pyFormat template.data comps with
    | .ok s => .ok (String.mk s)
    | .error (.keyError _) => .ok (String.mk (formatFallback template.data p.pools comps))
    | .error e => .error e

/-! ## The validator tool (src/Skill/validate_profile.py)

The typed embedding works on `Profile`; the source's `isinstance` branches
("Pool must be a list", "Template is not a string") guard un-typed JSON
data and are vacuous here. Python `str.lower` is embedded in the ASCII
range the profiles use (`Char.toLower`), as is `str.strip`'s whitespace
class. -/

def pyLower (s : String) : String := String.mk (s.data.map Char.toLower)

def pyIsSpace (c : Char) : Bool :=
  c = ' ' || c = '\t' || c = '\n' || c = '\x0d' || c = '\x0b' || c = '\x0c'

/-- `item.strip() == ''`: every character is whitespace. -/
def pyStripIsEmpty (s : String) : Bool := s.data.all pyIsSpace

/-- The duplicate-detection loop of `validate_pools` (lines 68-74): walk the
items with the set `seen` of lowercased items already passed; report each
item whose lowercasing was seen before. -/
def dupErrors (pool_name : String) : List String → List String → List String
  | _, [] => []
  | seen, item :: rest =>
    let item_lower := pyLower item
    (if item_lower ∈ seen then
      ["Duplicate entry in pool \x27" ++ pool_name ++ "\x27: \x27" ++ item ++ "\x27"]
     else []) ++ dupErrors pool_name (item_lower :: seen) rest

/-- The empty-string loop of `validate_pools` (lines 77-79). -/
def emptyStringErrors (pool_name : String) (items : List String) : List String :=
  (items.enum.filter (fun ie => pyStripIsEmpty ie.2)).map
    (fun ie => "Empty string at index " ++ toString ie.1 ++ " in pool \x27" ++
      pool_name ++ "\x27")

/-- `validate_pools(profile)` from src/Skill/validate_profile.py lines
52-81. -/
def validate_pools (pools : List (String × List String)) : List String :=
  pools.foldl (fun errors kv =>
    if kv.2.isEmpty then errors ++ ["Pool \x27" ++ kv.1 ++ "\x27 is empty"]
    else errors ++ dupErrors kv.1 [] kv.2 ++ emptyStringErrors kv.1 kv.2) []

/-- Fueled worker for `findPlaceholders` (each step consumes at least one
character). -/
def findPlaceholdersFuel : Nat → List Char → List String
  | 0, _ => []
  | _ + 1, [] => []
  | fuel + 1, c :: rest =>
    if c = braceL then
      match spanWord rest with
      | (w, r) =>
        match r with
        | r0 :: r1 =>
          if r0 = braceR ∧ w ≠ [] then String.mk w :: findPlaceholdersFuel fuel r1
          else findPlaceholdersFuel fuel rest
        | [] => findPlaceholdersFuel fuel rest
    else findPlaceholdersFuel fuel rest

/-- `re.findall(r'\x5c\x7b(\x5cw+)\x5c\x7d', template)`: every
non-overlapping `\x7bword\x7d` occurrence, scanning left to right. -/
def findPlaceholders (l : List Char) : List String :=
  findPlaceholdersFuel (l.length + 1) l

/-- `validate_templates(profile)` from src/Skill/validate_profile.py lines
84-107: flag each placeholder that names no pool. -/
def validate_templates (templates : List String)
    (pools : List (String × List String)) : List String :=
  (templates.enum.map (fun it =>
    ((findPlaceholders it.2.data).filter
        (fun phn => !(pools.map Prod.fst).contains phn)).map
      (fun phn => "Template " ++ toString it.1 ++
        " references undefined pool \x27" ++ phn ++ "\x27"))).flatten

/-! ## The validator tool's test generator
(src/Skill/validate_profile.py lines 118-145)

Selection uses `int(hashlib.md5(f"\x7bseed\x7d-\x7bidx\x7d-\x7bslot\x7d"
.encode()).hexdigest(), 16)` — a different hash backend from the core
generator's xxh32. -/

/-- The md5 selection number for `(seed, idx, slot)`. -/
def gtoHash (seed : Int) (idx slot : Nat) : Nat :=
  md5Int (strBytes (toString seed ++ "-" ++ toString idx ++ "-" ++ toString slot))

/-- The component loop of `generate_test_output` (lines 133-137). -/
def gtoBuildComponents (seed : Int) (idx : Nat) :
    Nat → List (String × List String) → Except PyErr (List (String × String))
  | _, [] => .ok []
  | i, (pool_name, pool_items) :: rest =>
    if hp : pool_items.length = 0 then .error .zeroDivisionError
    else do
      let comps ← gtoBuildComponents seed idx (i + 1) rest
      .ok ((pool_name, pool_items.get ⟨gtoHash seed idx (i + 1) % pool_items.length,
        Nat.mod_lt _ (Nat.pos_of_ne_zero hp)⟩) :: comps)

/-- One iteration of `generate_test_output`'s outer loop (lines 126-143). -/
def gtoOne (p : Profile) (seed : Int) (idx : Nat) : Except PyErr String :=
  if ht : p.templates.length = 0 then .error .zeroDivisionError
  else do
    let template := p.templates.get ⟨gtoHash seed idx 0 % p.templates.length,
      Nat.mod_lt _ (Nat.pos_of_ne_zero ht)⟩
    let comps ← gtoBuildComponents seed idx 0 p.pools
    match pyFormat template.data comps with
    | .ok s => .ok (String.mk s)
    | .error (.keyError n) =>
      .ok ("[ERROR: Missing pool \x27" ++ n ++ "\x27]")
    | .error e => .error e

/-- `generate_test_output(profile, seed, count)` from
src/Skill/validate_profile.py lines 118-145. -/
def generate_test_output (p : Profile) (seed : Int) (count : Nat) :
    Except PyErr (List String) :=
  (List.range count).mapM (gtoOne p seed)

/-! ## The profile loader (src/DJZ_ZeroEDIT.py lines 64-84) and the node's
cached `generate` (lines 217-242)

The filesystem is an explicit map from profile file name to content; a
content is either invalid JSON (carrying the `json.JSONDecodeError`
message) or a parsed JSON value. `load_profile` checks only that the keys
`templates` and `pools` are present — Python `'k' in profile` — before
returning the parsed value. -/

inductive Json where
  | null : Json
  | bool (b : Bool) : Json
  | num (n : Int) : Json
  | str (s : String) : Json
  | arr (xs : List Json) : Json
  | obj (fields : List (String × Json)) : Json

inductive FileContent where
  /-- A file whose text `json.load` rejects, with the decode-error message. -/
  | invalid (msg : String) : FileContent
  /-- A file parsing to a JSON value. -/
  | valid (j : Json) : FileContent

/-- The exceptions `load_profile` can raise, with `str(e)`. -/
inductive LoadErr where
  | fileNotFound (msg : String) : LoadErr
  | jsonDecodeError (msg : String) : LoadErr
  | valueError (msg : String) : LoadErr
  /-- `TypeError` from `'k' in profile` on a non-container (uncaught by the
  node's handler). -/
  | typeError : LoadErr
deriving DecidableEq, Repr

def LoadErr.msg : LoadErr → String
  | .fileNotFound m => m
  | .jsonDecodeError m => m
  | .valueError m => m
  | .typeError => ""

/-- Python `key in j` on a parsed JSON value: key membership for an object,
element equality for an array, substring for a string, `TypeError`
otherwise. -/
def jsonHasKey (j : Json) (key : String) : Except LoadErr Bool :=
  match j with
  | .obj fields => .ok ((fields.map Prod.fst).contains key)
  | .arr xs => .ok (xs.any (fun x => match x with | .str s => s = key | _ => false))
  | .str s => .ok (containsSub key.data s.data)
  | _ => .error .typeError

/-- `load_profile(profile_name)` from src/DJZ_ZeroEDIT.py lines 64-84. -/
def load_profile (fs : List (String × FileContent)) (profile_name : String) :
    Except LoadErr Json :=
  match fs.lookup profile_name with
  | none => .error (.fileNotFound ("Profile not found: " ++ profile_name))
  | some (.invalid m) => .error (.jsonDecodeError m)
  | some (.valid j) => do
    let hasT ← jsonHasKey j "templates"
    if !hasT then
      .error (.valueError ("Profile " ++ profile_name ++ " missing \x27templates\x27 field"))
    else do
      let hasP ← jsonHasKey j "pools"
      if !hasP then
        .error (.valueError ("Profile " ++ profile_name ++ " missing \x27pools\x27 field"))
      else .ok j

/-- Bridge from a loaded JSON value to the typed profile the generator
reads: `profile['templates']` as a string array and `profile['pools']` as
an object of string arrays. `none` models the `TypeError`/`KeyError` paths
of dynamically-typed access (not exercised by the claims). -/
def jsonToProfile (j : Json) : Option Profile := do
  let fields ← match j with | .obj fs => some fs | _ => none
  let tj ← fields.lookup "templates"
  let pj ← fields.lookup "pools"
  let ts ← match tj with
    | .arr xs => xs.mapM (fun x => match x with | .str s => some s | _ => none)
    | _ => none
  let ps ← match pj with
    | .obj pfs => pfs.mapM (fun kv => match kv.2 with
        | .arr xs => do
          let items ← xs.mapM (fun x => match x with | .str s => some s | _ => none)
          pure (kv.1, items)
        | _ => none)
    | _ => none
  pure ⟨ts, ps⟩

/-- The in-band error result of `DJZZeroEDIT.generate` on a load failure
(line 231): `f"[Error loading profile '...': ...]"`. -/
def loadErrorString (profile_name : String) (e : LoadErr) : String :=
  "[Error loading profile \x27" ++ profile_name ++ "\x27: " ++ e.msg ++ "]"

/-- The tail of `DJZZeroEDIT.generate` after the profile is available
(lines 233-242): generate and wrap with prefix/suffix. The bridge through
`jsonToProfile` models the dynamic typing of `profile_data`. -/
def nodeGenerateLoaded (profile_data : Json) (cache1 : List (String × Json))
    (seed prompt_index : Int) (pre suf : String) :
    Except (LoadErr ⊕ PyErr) (String × List (String × Json)) :=
  match jsonToProfile profile_data with
  | none => .error (.inl .typeError)
  | some p =>
    match generate_edit_prompt seed prompt_index p with
    | .error e => .error (.inr e)
    | .ok prompt =>
      .ok ((if pre ≠ "" ∨ suf ≠ "" then pre ++ prompt ++ suf else prompt), cache1)

/-- `DJZZeroEDIT.generate(profile, seed, prompt_index, prefix, suffix)`
from src/DJZ_ZeroEDIT.py lines 217-242, with the class-level
`_profile_cache` passed in and out explicitly. Load failures of the kinds
the handler catches (line 229: FileNotFoundError, ValueError,
JSONDecodeError) become an in-band error-string result; a `TypeError` and
generation-time errors propagate as `.error`. -/
def nodeGenerate (fs : List (String × FileContent))
    (cache : List (String × Json)) (profile : String) (seed prompt_index : Int)
    (pre suf : String) :
    Except (LoadErr ⊕ PyErr) (String × List (String × Json)) :=
  match cache.lookup profile with
  | some j => nodeGenerateLoaded j cache seed prompt_index pre suf
  | none =>
    match load_profile fs profile with
    | .ok j => nodeGenerateLoaded j (cache ++ [(profile, j)]) seed prompt_index pre suf
    | .error .typeError => .error (.inl .typeError)
    | .error e => .ok (loadErrorString profile e, cache)

/-! ## Spec-side selection functions

These restate the selection rule in the words of the specification
(section 4.3): template position `hash(seed,(index,0)) mod len(templates)`,
and for the pool at 1-based position `i`, value position
`hash(seed,(index,i)) mod len(pool)`. They are compared against the
source-side `generate_edit_prompt`. -/

/-- The hash of coordinate pair `(idx, slot)` as a total function of
in-range coordinates (equal to `edit_hash seed [idx, slot]` whenever both
are in int32 range). -/
def hashPair (seed idx slot : Int) : Nat :=
  xxh32 (pySeedMask seed) (int32ToBytesLE idx ++ int32ToBytesLE slot)

/-- The component selected for each pool, by the spec's rule: the pool at
0-based position `i` (1-based `i+1`) takes the entry at
`hash(seed,(index,i+1)) mod len(pool)`. -/
def specComponents (seed idx : Int) (pools : List (String × List String)) :
    List (String × String) :=
  pools.enum.map (fun ikv =>
    (ikv.2.1, ikv.2.2.getD (hashPair seed idx ((ikv.1 : Int) + 1) % ikv.2.2.length) ""))

/-! ## Example profiles -/

/-- The end-to-end scenario profile of spec section 8. -/
def profileXY : Profile :=
  ⟨["A {x} B {y}", "C {y}"], [("x", ["p", "q"]), ("y", ["r", "s", "t"])]⟩

/-- A profile whose only template references the undefined pool `ghost`. -/
def profileGhost : Profile := ⟨["{x} and {ghost}"], [("x", ["v"])]⟩

/-- A profile whose pool entry itself contains placeholder syntax: entry
`\x7bb\x7d` of pool `a`. -/
def profileBrace : Profile :=
  ⟨["{a} {ghost}"], [("a", ["{b}"]), ("b", ["B"])]⟩

/-- The combination-count example of spec section 8: 3 templates, pools of
4 and 5 entries. -/
def profile3x4x5 : Profile :=
  ⟨["t1", "t2", "t3"],
   [("action", ["a1", "a2", "a3", "a4"]),
    ("target", ["g1", "g2", "g3", "g4", "g5"])]⟩

/-! # Lemmas and claim theorems -/

instance instDecEqExcept {ε α : Type} [DecidableEq ε] [DecidableEq α] :
    DecidableEq (Except ε α) := fun x y =>
  match x, y with
  | .ok a, .ok b =>
    if h : a = b then .isTrue (by rw [h])
    else .isFalse (by intro he; cases he; exact h rfl)
  | .error a, .error b =>
    if h : a = b then .isTrue (by rw [h])
    else .isFalse (by intro he; cases he; exact h rfl)
  | .ok _, .error _ => .isFalse (by intro he; cases he)
  | .error _, .ok _ => .isFalse (by intro he; cases he)

theorem foldl_mul_len (l : List (String × List String)) (a : Nat) :
    l.foldl (fun t kv => t * kv.2.length) a =
      a * (l.map (fun kv => kv.2.length)).prod := by
  induction l generalizing a with
  | nil => simp
  | cons kv rest ih => simp [ih, Nat.mul_assoc]

/-- C8. `calculate_combinations(profile)` (both the core's and the
validator tool's copy) equals `len(templates)` times the product of the
pool sizes, and evaluates to `3 * 4 * 5 = 60` on a profile with 3 templates
and pools of sizes 4 and 5. -/
theorem c8_calculate_combinations :
    (∀ p : Profile, calculate_combinations p =
      p.templates.length * (p.pools.map (fun kv => kv.2.length)).prod) ∧
    (∀ p : Profile, vp_calculate_combinations p = calculate_combinations p) ∧
    calculate_combinations profile3x4x5 = 60 :=
  ⟨fun p => foldl_mul_len p.pools p.templates.length, fun _ => rfl, by decide⟩

theorem pySeedMask_emod (seed : Int) :
    pySeedMask (seed % (4294967296 : Int)) = pySeedMask seed := by
  have h : ((M32 : Nat) : Int) = (4294967296 : Int) := by norm_num [M32]
  unfold pySeedMask
  rw [h]
  show ((seed % (4294967296 : Int)) % (4294967296 : Int)).toNat =
    (seed % (4294967296 : Int)).toNat
  rw [Int.emod_emod_of_dvd seed dvd_rfl]

theorem edit_hash_emod (seed : Int) (coords : List Int) :
    edit_hash seed coords = edit_hash (seed % (4294967296 : Int)) coords := by
  unfold edit_hash
  rw [pySeedMask_emod]

theorem buildComponents_emod (seed idx : Int) (i : Nat)
    (pools : List (String × List String)) :
    buildComponents seed idx i pools =
      buildComponents (seed % (4294967296 : Int)) idx i pools := by
  induction pools generalizing i with
  | nil => rfl
  | cons kv rest ih =>
    cases kv with
    | mk key pool =>
      simp only [buildComponents, ← edit_hash_emod, ih]

/-- C9. Seed wraparound: `edit_hash` reduces the seed with
`seed & 0xFFFFFFFF`, so any integer seed hashes exactly as `seed mod 2^32`
does (also when the coordinates are out of packing range: both sides then
raise the same `struct.error`), and `generate_edit_prompt` inherits the
equality. -/
theorem c9_seed_wraparound (seed idx : Int) (coords : List Int) (p : Profile) :
    edit_hash seed coords = edit_hash (seed % (4294967296 : Int)) coords ∧
    generate_edit_prompt seed idx p =
      generate_edit_prompt (seed % (4294967296 : Int)) idx p := by
  refine ⟨edit_hash_emod seed coords, ?_⟩
  unfold generate_edit_prompt
  rw [← edit_hash_emod, ← buildComponents_emod]

/-- C4. The generation entry point declares `seed` and `prompt_index` in
`[0, 0xFFFFFFFF]` (src/DJZ_ZeroEDIT.py lines 183-194), but
`struct.pack('<i', ...)` inside `edit_hash` only accepts signed 32-bit
values: at `prompt_index = 2^31` (inside the declared range) `edit_hash`
and hence `generate_edit_prompt` raise `struct.error` instead of returning
a hash / a prompt string. -/
theorem c4_struct_error_in_declared_range :
    edit_hash 0 [2147483648, 0] = .error .structError ∧
    generate_edit_prompt 0 2147483648 profileXY = .error .structError ∧
    (int32Max : Int) < 2147483648 ∧ (2147483648 : Int) ≤ 4294967295 := by
  refine ⟨rfl, rfl, by decide, by decide⟩

/-! ## C6: the loader -/

/-- A parsed profile file whose `templates` is the empty array and whose
`pools` is the empty object. -/
def jsonEmptyFields : Json := .obj [("templates", .arr []), ("pools", .obj [])]

/-- A parsed profile file whose `templates` is a number and whose `pools`
is `null` — both keys present but wrong-typed. -/
def jsonWrongTyped : Json := .obj [("templates", .num 5), ("pools", .null)]

def fsSchema : List (String × FileContent) :=
  [("empty.json", .valid jsonEmptyFields), ("wrong.json", .valid jsonWrongTyped)]

/-- C6 counterexample. The claim says `load_profile` raises a schema error
whenever `templates` or `pools` is missing, wrong-typed, or empty; but the
code only checks key presence (lines 79-82): a profile with an empty
`templates` array and empty `pools` object, and one with a number and
`null` there, both load successfully. -/
theorem c6_counterexample :
    load_profile fsSchema "empty.json" = .ok jsonEmptyFields ∧
    load_profile fsSchema "wrong.json" = .ok jsonWrongTyped :=
  ⟨rfl, rfl⟩

/-- C6 as amended. `load_profile` raises `FileNotFoundError` exactly when
the name resolves to no file, `json.JSONDecodeError` when the contents are
not valid JSON, and a `ValueError` for an object profile exactly when the
key `templates` or `pools` is absent; any object with both keys present is
returned as parsed, with no type or emptiness checks. -/
theorem c6_load_profile_behaviour (fs : List (String × FileContent))
    (name : String) (flds : List (String × Json)) :
    (fs.lookup name = none →
      load_profile fs name =
        .error (.fileNotFound ("Profile not found: " ++ name))) ∧
    (∀ m, fs.lookup name = some (.invalid m) →
      load_profile fs name = .error (.jsonDecodeError m)) ∧
    (fs.lookup name = some (.valid (.obj flds)) →
      "templates" ∉ flds.map Prod.fst →
      load_profile fs name =
        .error (.valueError ("Profile " ++ name ++ " missing \x27templates\x27 field"))) ∧
    (fs.lookup name = some (.valid (.obj flds)) →
      "templates" ∈ flds.map Prod.fst →
      "pools" ∉ flds.map Prod.fst →
      load_profile fs name =
        .error (.valueError ("Profile " ++ name ++ " missing \x27pools\x27 field"))) ∧
    (fs.lookup name = some (.valid (.obj flds)) →
      "templates" ∈ flds.map Prod.fst →
      "pools" ∈ flds.map Prod.fst →
      load_profile fs name = .ok (.obj flds)) := by
  refine ⟨fun h => ?_, fun m h => ?_, fun h ht => ?_, fun h ht hp => ?_,
    fun h ht hp => ?_⟩ <;>
    simp [load_profile, h, jsonHasKey, bind, Except.bind, *]

/-- C6 witness: the amended behaviour at concrete inputs. -/
theorem c6_load_profile_behaviour_witness :
    load_profile fsSchema "gone.json" =
      .error (.fileNotFound ("Profile not found: " ++ "gone.json")) ∧
    load_profile fsSchema "empty.json" = .ok (.obj [("templates", .arr []), ("pools", .obj [])]) := by
  constructor
  · exact (c6_load_profile_behaviour fsSchema "gone.json" []).1 rfl
  · exact (c6_load_profile_behaviour fsSchema "empty.json"
      [("templates", .arr []), ("pools", .obj [])]).2.2.2.2 rfl (by decide) (by decide)

/-! ## C10: the node's cache on load failure -/

/-- C10. When the profile is not cached and `load_profile` raises one of
the caught exceptions (FileNotFoundError, ValueError, JSONDecodeError —
every `LoadErr` except `typeError`), `DJZZeroEDIT.generate` returns the
in-band string `"[Error loading profile '<name>': <message>]"` and the
cache is returned unchanged, so a later call re-attempts the load. -/
theorem c10_cache_unchanged_on_load_failure (fs : List (String × FileContent))
    (cache : List (String × Json)) (name : String) (seed idx : Int)
    (pre suf : String) (e : LoadErr)
    (hc : cache.lookup name = none)
    (hl : load_profile fs name = .error e)
    (he : e ≠ .typeError) :
    nodeGenerate fs cache name seed idx pre suf =
      .ok (loadErrorString name e, cache) := by
  unfold nodeGenerate
  rw [hc, hl]
  cases e with
  | fileNotFound m => rfl
  | jsonDecodeError m => rfl
  | valueError m => rfl
  | typeError => exact absurd rfl he

/-- C10 witness: a missing profile file on an empty cache yields the
in-band error string and an unchanged (still empty) cache. -/
theorem c10_cache_unchanged_witness :
    nodeGenerate [] [] "missing.json" 0 0 "" "" =
      .ok (loadErrorString "missing.json"
        (.fileNotFound ("Profile not found: " ++ "missing.json")), []) :=
  c10_cache_unchanged_on_load_failure [] [] "missing.json" 0 0 "" ""
    (.fileNotFound ("Profile not found: " ++ "missing.json")) rfl rfl
    (by decide)

/-! ## C5: cross-tool output equality -/

theorem hash_coords_true (seed : Int) (coords : List Int) :
    hash_coords true seed coords = edit_hash seed coords := rfl

theorem psBuildComponents_true (seed idx : Int) (i : Nat)
    (pools : List (String × List String)) :
    psBuildComponents true seed idx i pools = buildComponents seed idx i pools := by
  induction pools generalizing i with
  | nil => rfl
  | cons kv rest ih =>
    cases kv with
    | mk key pool =>
      simp only [psBuildComponents, buildComponents, hash_coords_true, ih]
      rfl

/-- C5 as amended. The stats tool's `generate_prompt`, run with the xxhash
backend present (`HAS_XXHASH`, the configuration under which the tool
matches the core by design), returns exactly what the core
`generate_edit_prompt` returns on every `(seed, index, profile)` — errors
included. The validator tool's `generate_test_output` is not included: it
selects with md5 ("simple hash simulation") and its output text is not in
general that of the core (see the counterexample). -/
theorem c5_stats_tool_matches_core (seed idx : Int) (p : Profile) :
    generate_prompt true seed idx p = generate_edit_prompt seed idx p := by
  unfold generate_prompt generate_edit_prompt
  rw [psBuildComponents_true]
  rfl

set_option maxRecDepth 40000 in
/-- C5 counterexample. On a profile whose single template references the
undefined pool `ghost`, `generate_test_output` reports its `[ERROR: ...]`
line while the core generator returns the partially substituted prompt:
the two tools' texts differ at `(seed, index) = (42, 0)`. -/
theorem c5_counterexample :
    generate_test_output profileGhost 42 1 =
      .ok ["[ERROR: Missing pool \x27ghost\x27]"] ∧
    generate_edit_prompt 42 0 profileGhost = .ok "v and {ghost}" ∧
    ("[ERROR: Missing pool \x27ghost\x27]" : String) ≠ "v and {ghost}" :=
  ⟨by decide, by decide, by decide⟩

/-! ## C7: the validator -/

theorem foldl_append_blocks {α β : Type} (g : α → List β) (l : List α)
    (a : List β) :
    l.foldl (fun acc x => acc ++ g x) a = a ++ (l.map g).flatten := by
  induction l generalizing a with
  | nil => simp
  | cons x rest ih => simp [ih]

/-- The per-pool finding block of `validate_pools`. -/
def poolFindings (kv : String × List String) : List String :=
  if kv.2.isEmpty then ["Pool \x27" ++ kv.1 ++ "\x27 is empty"]
  else dupErrors kv.1 [] kv.2 ++ emptyStringErrors kv.1 kv.2

theorem validate_pools_eq_flatten (pools : List (String × List String)) :
    validate_pools pools = (pools.map poolFindings).flatten := by
  unfold validate_pools
  have h : (fun (errors : List String) (kv : String × List String) =>
      if kv.2.isEmpty then errors ++ ["Pool \x27" ++ kv.1 ++ "\x27 is empty"]
      else errors ++ dupErrors kv.1 [] kv.2 ++ emptyStringErrors kv.1 kv.2) =
      fun errors kv => errors ++ poolFindings kv := by
    funext errors kv
    unfold poolFindings
    split <;> simp
  rw [h, foldl_append_blocks]
  simp

theorem dupErrors_ne_nil_of_seen (name : String) (items : List String) :
    ∀ seen : List String, (∃ x ∈ items, pyLower x ∈ seen) →
      dupErrors name seen items ≠ [] := by
  induction items with
  | nil =>
    rintro seen ⟨x, hx, _⟩
    cases hx
  | cons it rest ih =>
    rintro seen ⟨x, hx, hlow⟩
    by_cases hmem : pyLower it ∈ seen
    · simp [dupErrors, hmem]
    · rcases List.mem_cons.mp hx with rfl | hx
      · exact absurd hlow hmem
      · simp only [dupErrors, if_neg hmem, List.nil_append]
        exact ih (pyLower it :: seen) ⟨x, hx, List.mem_cons_of_mem _ hlow⟩

theorem dupErrors_ne_nil_of_dup (name : String) (items : List String) :
    ∀ seen : List String, ¬ (items.map pyLower).Nodup →
      dupErrors name seen items ≠ [] := by
  induction items with
  | nil => intro seen h; exact absurd List.nodup_nil h
  | cons it rest ih =>
    intro seen h
    by_cases hmem : pyLower it ∈ seen
    · simp [dupErrors, hmem]
    · simp only [dupErrors, if_neg hmem, List.nil_append]
      rw [List.map_cons, List.nodup_cons] at h
      push_neg at h
      by_cases hin : pyLower it ∈ rest.map pyLower
      · obtain ⟨x, hx, hlx⟩ := List.mem_map.mp hin
        exact dupErrors_ne_nil_of_seen name rest (pyLower it :: seen)
          ⟨x, hx, by rw [hlx]; exact List.mem_cons_self _ _⟩
      · exact ih (pyLower it :: seen) (h hin)

theorem dupErrors_eq_nil (name : String) (items : List String) :
    ∀ seen : List String, (∀ x ∈ items, pyLower x ∉ seen) →
      (items.map pyLower).Nodup → dupErrors name seen items = [] := by
  induction items with
  | nil => intro seen _ _; rfl
  | cons it rest ih =>
    intro seen hs hn
    rw [List.map_cons, List.nodup_cons] at hn
    have hmem : pyLower it ∉ seen := hs it (List.mem_cons_self _ _)
    simp only [dupErrors, if_neg hmem, List.nil_append]
    refine ih (pyLower it :: seen) (fun x hx => ?_) hn.2
    intro hc
    rcases List.mem_cons.mp hc with heq | hc2
    · exact hn.1 (heq ▸ List.mem_map_of_mem pyLower hx)
    · exact hs x (List.mem_cons_of_mem _ hx) hc2

theorem emptyStringErrors_eq_nil (name : String) (items : List String)
    (h : ∀ x ∈ items, pyStripIsEmpty x = false) :
    emptyStringErrors name items = [] := by
  unfold emptyStringErrors
  rw [List.map_eq_nil_iff, List.filter_eq_nil_iff]
  rintro ⟨i, x⟩ hmem
  have hx : x ∈ items := by
    have h2 : x ∈ items.enum.map Prod.snd := List.mem_map_of_mem Prod.snd hmem
    rwa [List.enum_map_snd] at h2
  simp [h x hx]

theorem emptyStringErrors_ne_nil (name : String) (items : List String)
    (x : String) (hx : x ∈ items) (hb : pyStripIsEmpty x = true) :
    emptyStringErrors name items ≠ [] := by
  obtain ⟨i, hi⟩ := List.get_of_mem hx
  have henum : (i.1, x) ∈ items.enum :=
    List.mk_mem_enum_iff_getElem?.mpr (by simp [← hi])
  have hfil : ((i.1, x)) ∈ items.enum.filter (fun ie => pyStripIsEmpty ie.2) :=
    List.mem_filter.mpr ⟨henum, by simpa using hb⟩
  unfold emptyStringErrors
  exact List.ne_nil_of_mem (List.mem_map_of_mem _ hfil)

theorem validate_pools_block_sub (pools : List (String × List String))
    (kv : String × List String) (hkv : kv ∈ pools) :
    ∀ e ∈ poolFindings kv, e ∈ validate_pools pools := by
  intro e he
  rw [validate_pools_eq_flatten, List.mem_flatten]
  exact ⟨poolFindings kv, List.mem_map_of_mem poolFindings hkv, he⟩

theorem validate_templates_mem (templates : List String)
    (pools : List (String × List String)) (i : Nat) (t : String) (phn : String)
    (ht : (i, t) ∈ templates.enum) (hph : phn ∈ findPlaceholders t.data)
    (hnk : phn ∉ pools.map Prod.fst) :
    ("Template " ++ toString i ++ " references undefined pool \x27" ++ phn ++ "\x27")
      ∈ validate_templates templates pools := by
  unfold validate_templates
  rw [List.mem_flatten]
  refine ⟨_, List.mem_map_of_mem _ ht, ?_⟩
  refine List.mem_map_of_mem _ ?_
  rw [List.mem_filter]
  refine ⟨hph, ?_⟩
  simpa using hnk

theorem validate_templates_eq_nil (templates : List String)
    (pools : List (String × List String))
    (h : ∀ t ∈ templates, ∀ phn ∈ findPlaceholders t.data,
      phn ∈ pools.map Prod.fst) :
    validate_templates templates pools = [] := by
  unfold validate_templates
  rw [List.flatten_eq_nil_iff]
  intro l hl
  rw [List.mem_map] at hl
  obtain ⟨⟨i, t⟩, hmem, rfl⟩ := hl
  have ht : t ∈ templates := by
    have h2 : t ∈ templates.enum.map Prod.snd := List.mem_map_of_mem Prod.snd hmem
    rwa [List.enum_map_snd] at h2
  rw [List.map_eq_nil_iff, List.filter_eq_nil_iff]
  intro phn hphn
  simp [h t ht phn hphn]

theorem validate_pools_eq_nil (pools : List (String × List String))
    (h1 : ∀ kv ∈ pools, kv.2 ≠ [])
    (h2 : ∀ kv ∈ pools, (kv.2.map pyLower).Nodup)
    (h3 : ∀ kv ∈ pools, ∀ x ∈ kv.2, pyStripIsEmpty x = false) :
    validate_pools pools = [] := by
  rw [validate_pools_eq_flatten, List.flatten_eq_nil_iff]
  intro l hl
  rw [List.mem_map] at hl
  obtain ⟨kv, hkv, rfl⟩ := hl
  unfold poolFindings
  rw [if_neg (by simp [h1 kv hkv])]
  rw [dupErrors_eq_nil kv.1 kv.2 [] (by simp) (h2 kv hkv),
    emptyStringErrors_eq_nil kv.1 kv.2 (h3 kv hkv)]
  rfl

/-- C7 as amended. Each of the claim's three defects yields at least one
finding: an empty pool yields its "Pool ... is empty" finding; a pool with
a case-insensitively duplicated entry yields at least one duplicate finding
(all of which appear among the reported findings); a template placeholder
naming no pool yields its "references undefined pool" finding. A blank
(all-whitespace) pool entry — a fourth defect class the claim omits — also
yields findings. A profile with none of these four defects (well-typed,
per the typed embedding) yields zero findings. -/
theorem c7_validator_findings (pools : List (String × List String))
    (templates : List String) :
    (∀ name : String, (name, ([] : List String)) ∈ pools →
      ("Pool \x27" ++ name ++ "\x27 is empty") ∈ validate_pools pools) ∧
    (∀ kv ∈ pools, ¬ (kv.2.map pyLower).Nodup →
      dupErrors kv.1 [] kv.2 ≠ [] ∧
        ∀ e ∈ dupErrors kv.1 [] kv.2, e ∈ validate_pools pools) ∧
    (∀ (i : Nat) (t phn : String), (i, t) ∈ templates.enum →
      phn ∈ findPlaceholders t.data → phn ∉ pools.map Prod.fst →
      ("Template " ++ toString i ++ " references undefined pool \x27" ++ phn ++ "\x27")
        ∈ validate_templates templates pools) ∧
    (∀ kv ∈ pools, ∀ x ∈ kv.2, pyStripIsEmpty x = true →
      emptyStringErrors kv.1 kv.2 ≠ [] ∧
        ∀ e ∈ emptyStringErrors kv.1 kv.2, e ∈ validate_pools pools) ∧
    ((∀ kv ∈ pools, kv.2 ≠ []) →
      (∀ kv ∈ pools, (kv.2.map pyLower).Nodup) →
      (∀ kv ∈ pools, ∀ x ∈ kv.2, pyStripIsEmpty x = false) →
      (∀ t ∈ templates, ∀ phn ∈ findPlaceholders t.data,
        phn ∈ pools.map Prod.fst) →
      validate_pools pools ++ validate_templates templates pools = []) := by
  refine ⟨?_, ?_, ?_, ?_, ?_⟩
  · intro name hmem
    refine validate_pools_block_sub pools (name, []) hmem _ ?_
    simp [poolFindings]
  · intro kv hkv hdup
    have hne : kv.2 ≠ [] := by
      intro h0
      rw [h0] at hdup
      exact hdup (by simp)
    refine ⟨dupErrors_ne_nil_of_dup kv.1 kv.2 [] hdup, fun e he => ?_⟩
    refine validate_pools_block_sub pools kv hkv e ?_
    unfold poolFindings
    rw [if_neg (by simp [hne])]
    exact List.mem_append_left _ he
  · exact fun i t phn ht hph hnk =>
      validate_templates_mem templates pools i t phn ht hph hnk
  · intro kv hkv x hx hb
    have hne : kv.2 ≠ [] := List.ne_nil_of_mem hx
    refine ⟨emptyStringErrors_ne_nil kv.1 kv.2 x hx hb, fun e he => ?_⟩
    refine validate_pools_block_sub pools kv hkv e ?_
    unfold poolFindings
    rw [if_neg (by simp [hne])]
    exact List.mem_append_right _ he
  · intro h1 h2 h3 h4
    rw [validate_pools_eq_nil pools h1 h2 h3,
      validate_templates_eq_nil templates pools h4]
    rfl

/-- C7 witness: on the spec's end-to-end scenario profile (well-formed, no
defects) the validator reports zero findings; on a profile with one empty
pool it reports the empty-pool finding. -/
theorem c7_validator_findings_witness :
    validate_pools profileXY.pools ++
      validate_templates profileXY.templates profileXY.pools = [] ∧
    ("Pool \x27y\x27 is empty") ∈ validate_pools [("y", [])] := by
  constructor
  · exact (c7_validator_findings profileXY.pools profileXY.templates).2.2.2.2
      (by decide) (by decide) (by decide) (by decide)
  · exact (c7_validator_findings [("y", [])] []).1 "y" (by decide)

/-- C7 counterexample. A profile whose single pool entry is the blank
string `" "` has none of the claim's three defects (no empty pool, no
case-insensitive duplicate, no undefined placeholder), yet the validator
reports one finding, contradicting the claim's "zero findings" half. -/
theorem c7_counterexample :
    ([" "] : List String) ≠ [] ∧
    (([" "] : List String).map pyLower).Nodup ∧
    findPlaceholders "{x}".data = ["x"] ∧
    "x" ∈ ([("x", [" "])].map Prod.fst : List String) ∧
    validate_pools [("x", [" "])] ++ validate_templates ["{x}"] [("x", [" "])] =
      ["Empty string at index 0 in pool \x27x\x27"] := by
  refine ⟨by decide, by decide, by decide, by decide, by decide⟩

/-! ## String-machinery lemmas for C1-C3

Step equations for the fueled scanners, correctness of `parseTemplate`, and
the semantics of the `str.replace` fallback loop. -/

theorem spanWord_append_eq (l : List Char) :
    (spanWord l).1 ++ (spanWord l).2 = l := by
  induction l with
  | nil => rfl
  | cons c rest ih =>
    simp only [spanWord]
    split
    · cases h : spanWord rest with
      | mk w r =>
        rw [h] at ih
        simpa using ih
    · rfl

theorem spanWord_fst_word (l : List Char) :
    ∀ c ∈ (spanWord l).1, isWordChar c = true := by
  induction l with
  | nil => intro c hc; cases hc
  | cons c0 rest ih =>
    simp only [spanWord]
    split
    · cases h : spanWord rest with
      | mk w r =>
        rw [h] at ih
        intro c hc
        rcases List.mem_cons.mp hc with rfl | hc
        · assumption
        · exact ih c hc
    · intro c hc; cases hc

theorem parseTemplateFuel_congr :
    ∀ (f1 f2 : Nat) (l : List Char), l.length < f1 → l.length < f2 →
      parseTemplateFuel f1 l = parseTemplateFuel f2 l := by
  intro f1
  induction f1 with
  | zero => intro f2 l h1; omega
  | succ f1 ih =>
    intro f2 l h1 h2
    cases l with
    | nil =>
      cases f2 with
      | zero => omega
      | succ f2 => rfl
    | cons c rest =>
      cases f2 with
      | zero => omega
      | succ f2 =>
        have hrest1 : rest.length < f1 := by simp at h1; omega
        have hrest2 : rest.length < f2 := by simp at h2; omega
        simp only [parseTemplateFuel]
        have hsw := spanWord_append_eq rest
        cases h : spanWord rest with
        | mk w r =>
          rw [h] at hsw
          by_cases hc : c = braceL
          · rw [if_pos hc, if_pos hc]
            cases r with
            | nil => rfl
            | cons r0 r1 =>
              have hr1 : r1.length < rest.length := by
                have hlen : w.length + (r0 :: r1).length = rest.length := by
                  rw [← hsw]; simp
                simp only [List.length_cons] at hlen
                omega
              dsimp only
              by_cases hcond : r0 = braceR ∧ w ≠ []
              · rw [if_pos hcond, if_pos hcond,
                  ih f2 r1 (by omega) (by omega)]
              · rw [if_neg hcond, if_neg hcond]
          · rw [if_neg hc, if_neg hc]
            by_cases hbr : c = braceR
            · rw [if_pos hbr, if_pos hbr]
            · rw [if_neg hbr, if_neg hbr, ih f2 rest hrest1 hrest2]

theorem parseTemplate_eq_fuel (l : List Char) (fuel : Nat) (h : l.length < fuel) :
    parseTemplate l = parseTemplateFuel fuel l :=
  parseTemplateFuel_congr (l.length + 1) fuel l (by omega) h

theorem replaceAllFuel_congr (pat rep : List Char) :
    ∀ (f1 f2 : Nat) (l : List Char), l.length ≤ f1 → l.length ≤ f2 →
      replaceAllFuel pat rep f1 l = replaceAllFuel pat rep f2 l := by
  intro f1
  induction f1 with
  | zero =>
    intro f2 l h1 h2
    have : l = [] := List.eq_nil_of_length_eq_zero (by omega)
    subst this
    cases f2 <;> rfl
  | succ f1 ih =>
    intro f2 l h1 h2
    cases l with
    | nil => cases f2 <;> rfl
    | cons c rest =>
      cases f2 with
      | zero => simp at h2
      | succ f2 =>
        simp only [replaceAllFuel]
        split
        · rename_i hcond
          have hlen : ((c :: rest).drop pat.length).length ≤ f1 ∧
              ((c :: rest).drop pat.length).length ≤ f2 := by
            have : 0 < pat.length := List.length_pos.mpr hcond.1
            simp only [List.length_cons] at h1 h2
            simp only [List.length_drop, List.length_cons]
            omega
          rw [ih f2 _ hlen.1 hlen.2]
        · rw [ih f2 rest (by simp at h1; omega) (by simp at h2; omega)]

theorem replaceAll_nil (pat rep : List Char) : replaceAll pat rep [] = [] := rfl

theorem replaceAll_pos (pat rep : List Char) (c : Char) (rest : List Char)
    (h : pat ≠ [] ∧ pat.isPrefixOf (c :: rest)) :
    replaceAll pat rep (c :: rest) =
      rep ++ replaceAll pat rep ((c :: rest).drop pat.length) := by
  unfold replaceAll
  rw [show (c :: rest).length = rest.length + 1 from rfl]
  simp only [replaceAllFuel, if_pos h]
  rw [replaceAllFuel_congr pat rep rest.length ((c :: rest).drop pat.length).length _
    (by have : 0 < pat.length := List.length_pos.mpr h.1
        simp only [List.length_drop, List.length_cons]; omega)
    (le_refl _)]

theorem replaceAll_neg (pat rep : List Char) (c : Char) (rest : List Char)
    (h : ¬ (pat ≠ [] ∧ pat.isPrefixOf (c :: rest))) :
    replaceAll pat rep (c :: rest) = c :: replaceAll pat rep rest := by
  unfold replaceAll
  rw [show (c :: rest).length = rest.length + 1 from rfl]
  simp only [replaceAllFuel, if_neg h]

/-- Well-formedness of parsed parts: literal characters are not braces,
placeholder names are non-empty words. -/
def partGood : Part → Prop
  | .lit c => c ≠ braceL ∧ c ≠ braceR
  | .ph n => n.data ≠ [] ∧ ∀ c ∈ n.data, isWordChar c = true

/-- The raw text of a part: exactly the characters it was parsed from. -/
def rawOfPart : Part → List Char
  | .lit c => [c]
  | .ph n => braceL :: n.data ++ [braceR]

theorem parseTemplateFuel_spec :
    ∀ (fuel : Nat) (l : List Char) (parts : List Part),
      parseTemplateFuel fuel l = some parts →
      (∀ part ∈ parts, partGood part) ∧ (parts.map rawOfPart).flatten = l := by
  intro fuel
  induction fuel with
  | zero => intro l parts h; cases h
  | succ fuel ih =>
    intro l parts h
    cases l with
    | nil =>
      cases h
      exact ⟨fun part hp => absurd hp (List.not_mem_nil part), rfl⟩
    | cons c rest =>
      simp only [parseTemplateFuel] at h
      by_cases hbl : c = braceL
      · rw [if_pos hbl] at h
        have hsw := spanWord_append_eq rest
        have hw := spanWord_fst_word rest
        cases hspan : spanWord rest with
        | mk w r =>
          rw [hspan] at h hsw hw
          dsimp only at h hsw hw
          cases r with
          | nil => cases h
          | cons r0 r1 =>
            dsimp only at h
            by_cases hcond : r0 = braceR ∧ w ≠ []
            · rw [if_pos hcond] at h
              cases hrec : parseTemplateFuel fuel r1 with
              | none => rw [hrec] at h; cases h
              | some ps =>
                rw [hrec] at h
                simp only [Option.map_some'] at h
                cases h
                obtain ⟨hgood, hflat⟩ := ih r1 ps hrec
                constructor
                · intro part hp
                  rcases List.mem_cons.mp hp with rfl | hp
                  · exact ⟨by simpa using hcond.2, by simpa using hw⟩
                  · exact hgood part hp
                · simp only [List.map_cons, List.flatten_cons, hflat, rawOfPart]
                  rw [hbl, ← hsw, hcond.1]
                  simp
            · rw [if_neg hcond] at h; cases h
      · rw [if_neg hbl] at h
        by_cases hbr : c = braceR
        · rw [if_pos hbr] at h; cases h
        · rw [if_neg hbr] at h
          cases hrec : parseTemplateFuel fuel rest with
          | none => rw [hrec] at h; cases h
          | some ps =>
            rw [hrec] at h
            simp only [Option.map_some'] at h
            cases h
            obtain ⟨hgood, hflat⟩ := ih rest ps hrec
            constructor
            · intro part hp
              rcases List.mem_cons.mp hp with rfl | hp
              · exact ⟨hbl, hbr⟩
              · exact hgood part hp
            · simp [rawOfPart, hflat]

theorem parseTemplate_spec (l : List Char) (parts : List Part)
    (h : parseTemplate l = some parts) :
    (∀ part ∈ parts, partGood part) ∧ (parts.map rawOfPart).flatten = l :=
  parseTemplateFuel_spec (l.length + 1) l parts h

/-! ## Semantics of the `str.replace` fallback loop -/

/-- Character lists made of `\w` word characters. -/
def wordChars (l : List Char) : Prop := ∀ c ∈ l, isWordChar c = true

/-- Character lists with no opening brace. -/
def noBraceL (l : List Char) : Prop := ∀ c ∈ l, c ≠ braceL

instance (l : List Char) : Decidable (wordChars l) := by
  unfold wordChars
  infer_instance

instance (l : List Char) : Decidable (noBraceL l) := by
  unfold noBraceL
  infer_instance

theorem isWordChar_braceL : isWordChar braceL = false := by decide

theorem isWordChar_braceR : isWordChar braceR = false := by decide

theorem wordChars_noBraceL (l : List Char) (h : wordChars l) : noBraceL l := by
  intro c hc
  intro heq
  have := h c hc
  rw [heq, isWordChar_braceL] at this
  cases this

/-- Rendering of parts where `f` gives the already-substituted value of a
placeholder (`none`: not yet substituted, so the `\x7bname\x7d` token is
still in the text). This is the state of the fallback loop's string. -/
def partTok (f : String → Option String) : Part → List Char
  | .lit c => [c]
  | .ph n =>
    match f n with
    | some v => v.data
    | none => braceL :: n.data ++ [braceR]

def renderTok (f : String → Option String) (parts : List Part) : List Char :=
  (parts.map (partTok f)).flatten

theorem partTok_none_eq_raw : partTok (fun _ => none) = rawOfPart := by
  funext part
  cases part <;> rfl

theorem renderTok_none_eq_raw (parts : List Part) :
    renderTok (fun _ => none) parts = (parts.map rawOfPart).flatten := by
  unfold renderTok
  rw [partTok_none_eq_raw]

theorem replaceAll_skip (pat rep : List Char) (pat' : List Char)
    (hpat : pat = braceL :: pat') :
    ∀ (v s : List Char), noBraceL v →
      replaceAll pat rep (v ++ s) = v ++ replaceAll pat rep s := by
  intro v
  induction v with
  | nil => intro s _; simp
  | cons c v' ih =>
    intro s hv
    have hvc : c ≠ braceL := hv c (List.mem_cons_self c v')
    have hne : ¬ (pat ≠ [] ∧ pat.isPrefixOf (c :: (v' ++ s))) := by
      rintro ⟨-, hpre⟩
      rw [hpat] at hpre
      simp only [List.isPrefixOf, Bool.and_eq_true, beq_iff_eq] at hpre
      exact hvc hpre.1.symm
    have hv' : noBraceL v' := fun c2 hc2 => hv c2 (List.mem_cons_of_mem _ hc2)
    rw [List.cons_append, replaceAll_neg pat rep c (v' ++ s) hne, ih s hv',
      List.cons_append]

theorem replaceAll_match_head (pat rep s : List Char) (hne : pat ≠ []) :
    replaceAll pat rep (pat ++ s) = rep ++ replaceAll pat rep s := by
  obtain ⟨c, p', rfl⟩ := List.exists_cons_of_ne_nil hne
  have hpre : (c :: p').isPrefixOf ((c :: p') ++ s) = true := by
    rw [List.isPrefixOf_iff_prefix]
    exact List.prefix_append _ _
  rw [List.cons_append,
    replaceAll_pos _ _ _ _ ⟨hne, by rw [← List.cons_append]; exact hpre⟩]
  congr 1
  rw [← List.cons_append, List.drop_left]

theorem word_token_no_match :
    ∀ (k n : List Char), wordChars k → wordChars n → k ≠ n →
      ∀ s : List Char, (k ++ [braceR]).isPrefixOf (n ++ braceR :: s) = false := by
  intro k
  induction k with
  | nil =>
    intro n hk hn hkn s
    cases n with
    | nil => exact absurd rfl hkn
    | cons b n' =>
      have hb : isWordChar b = true := hn b (List.mem_cons_self _ _)
      have hbr : braceR ≠ b := by
        intro heq
        rw [← heq, isWordChar_braceR] at hb
        cases hb
      simp only [List.nil_append, List.cons_append, List.isPrefixOf]
      simp [hbr]
  | cons a k' ih =>
    intro n hk hn hkn s
    have ha : isWordChar a = true := hk a (List.mem_cons_self _ _)
    cases n with
    | nil =>
      have har : a ≠ braceR := by
        intro heq
        rw [heq, isWordChar_braceR] at ha
        cases ha
      simp only [List.nil_append, List.cons_append, List.isPrefixOf]
      simp [har]
    | cons b n' =>
      by_cases hab : a = b
      · subst hab
        have hk' : wordChars k' := fun c hc => hk c (List.mem_cons_of_mem _ hc)
        have hn' : wordChars n' := fun c hc => hn c (List.mem_cons_of_mem _ hc)
        have hkn' : k' ≠ n' := by
          intro heq
          exact hkn (by rw [heq])
        simp only [List.cons_append, List.isPrefixOf]
        simp [ih n' hk' hn' hkn' s]
      · simp only [List.cons_append, List.isPrefixOf]
        simp [hab]

theorem replaceAll_renderTok (k vS : String)
    (hk : k.data ≠ []) (hkw : wordChars k.data) (hv : noBraceL vS.data) :
    ∀ (parts : List Part) (f : String → Option String),
      (∀ part ∈ parts, partGood part) →
      (∀ n v0, f n = some v0 → noBraceL v0.data) →
      (f k = none ∨ f k = some vS) →
      replaceAll (braceL :: k.data ++ [braceR]) vS.data (renderTok f parts) =
        renderTok (fun n => if n = k then some vS else f n) parts := by
  intro parts
  induction parts with
  | nil => intro f _ _ _; rfl
  | cons part rest ih =>
    intro f hgood hf hcons
    have hgrest : ∀ p ∈ rest, partGood p :=
      fun p hp => hgood p (List.mem_cons_of_mem _ hp)
    have hgp := hgood part (List.mem_cons_self _ _)
    have ihrest := ih f hgrest hf hcons
    cases part with
    | lit c =>
      have hchunk : renderTok f (Part.lit c :: rest) = [c] ++ renderTok f rest := by
        simp [renderTok, partTok]
      have hnb : noBraceL [c] := by
        intro c2 hc2
        rw [List.mem_singleton.mp hc2]
        exact hgp.1
      rw [hchunk, replaceAll_skip _ _ _ (List.cons_append _ _ _) [c] _ hnb, ihrest]
      simp [renderTok, partTok]
    | ph n =>
      cases hfn : f n with
      | some v0 =>
        have hchunk : renderTok f (Part.ph n :: rest) = v0.data ++ renderTok f rest := by
          simp [renderTok, partTok, hfn]
        rw [hchunk, replaceAll_skip _ _ _ (List.cons_append _ _ _) v0.data _ (hf n v0 hfn), ihrest]
        by_cases hnk : n = k
        · subst hnk
          rcases hcons with hc | hc
        -- f n both some v0 and none: impossible
          · rw [hfn] at hc; cases hc
          · rw [hfn] at hc
            injection hc with hvv
            simp [renderTok, partTok, hvv]
        · simp [renderTok, partTok, hnk, hfn]
      | none =>
        have hchunk : renderTok f (Part.ph n :: rest) =
            braceL :: (n.data ++ (braceR :: renderTok f rest)) := by
          simp [renderTok, partTok, hfn]
        by_cases hnk : n = k
        · subst hnk
          have hpatchunk : renderTok f (Part.ph n :: rest) =
              (braceL :: n.data ++ [braceR]) ++ renderTok f rest := by
            rw [hchunk]; simp
          rw [hpatchunk, replaceAll_match_head _ _ _ (by simp), ihrest]
          simp [renderTok, partTok]
        · have hnw : wordChars n.data := hgp.2
          have hndata : k.data ≠ n.data := by
            intro heq
            exact hnk (String.ext heq.symm)
          -- step 1: no match at the opening brace of the token
          have hne1 : ¬ ((braceL :: k.data ++ [braceR]) ≠ [] ∧
              (braceL :: k.data ++ [braceR]).isPrefixOf
                (braceL :: (n.data ++ (braceR :: renderTok f rest)))) := by
            rintro ⟨-, hpre⟩
            have : (braceL :: (k.data ++ [braceR])).isPrefixOf
                (braceL :: (n.data ++ braceR :: renderTok f rest)) = true := by
              simpa using hpre
            simp only [List.isPrefixOf, Bool.and_eq_true, beq_iff_eq] at this
            rw [word_token_no_match k.data n.data hkw hnw hndata
              (renderTok f rest)] at this
            exact Bool.false_ne_true this.2
          rw [hchunk, replaceAll_neg _ _ _ _ hne1,
            replaceAll_skip _ _ _ (List.cons_append _ _ _) n.data _ (wordChars_noBraceL n.data hnw)]
          -- step 3: no match at the closing brace
          have hne3 : ¬ ((braceL :: k.data ++ [braceR]) ≠ [] ∧
              (braceL :: k.data ++ [braceR]).isPrefixOf
                (braceR :: renderTok f rest)) := by
            rintro ⟨-, hpre⟩
            simp only [List.cons_append, List.isPrefixOf, Bool.and_eq_true,
              beq_iff_eq] at hpre
            exact absurd hpre.1 (by decide)
          rw [replaceAll_neg _ _ _ _ hne3, ihrest]
          simp [renderTok, partTok, hnk, hfn]

/-! ## Selection characterization (shared by C1, C2, C3) -/

/-- The value the fallback loop substitutes for pool key `k`:
`components.get(key, "[key]")` (the default is dead code whenever the
component map covers every pool key). -/
def compValue (comps : List (String × String)) (k : String) : String :=
  (comps.lookup k).getD ("[" ++ k ++ "]")

/-- The template the spec's rule selects:
`templates[hash(seed,(index,0)) mod len(templates)]`. -/
def selectedTemplate (seed idx : Int) (p : Profile) : String :=
  p.templates.getD (hashPair seed idx 0 % p.templates.length) ""

/-- `specComponents` generalized to a starting coordinate, mirroring the
loop of `buildComponents`. -/
def specComponentsFrom (seed idx : Int) (i0 : Nat)
    (pools : List (String × List String)) : List (String × String) :=
  (pools.enumFrom i0).map (fun ikv =>
    (ikv.2.1, ikv.2.2.getD (hashPair seed idx ((ikv.1 : Int) + 1) % ikv.2.2.length) ""))

theorem specComponents_eq_from (seed idx : Int)
    (pools : List (String × List String)) :
    specComponents seed idx pools = specComponentsFrom seed idx 0 pools := rfl

theorem lookup_isSome_of_mem_keys {β : Type} (l : List (String × β)) (k : String)
    (h : k ∈ l.map Prod.fst) : (l.lookup k).isSome := by
  induction l with
  | nil => simp at h
  | cons kv rest ih =>
    rw [List.map_cons, List.mem_cons] at h
    by_cases he : k = kv.1
    · simp [List.lookup, he]
    · rw [List.lookup]
      have hb : (k == kv.1) = false := by simp [he]
      rw [hb]
      exact ih (h.resolve_left he)

theorem mem_of_lookup_eq_some {β : Type} (l : List (String × β)) (k : String)
    (v : β) (h : l.lookup k = some v) : (k, v) ∈ l := by
  induction l with
  | nil => cases h
  | cons kv rest ih =>
    rw [List.lookup] at h
    by_cases he : (k == kv.1) = true
    · rw [he] at h
      injection h with hv
      cases kv with
      | mk a b =>
        have hk : k = a := by simpa using he
        subst hk
        subst hv
        exact List.mem_cons_self _ _
    · rw [Bool.not_eq_true] at he
      rw [he] at h
      exact List.mem_cons_of_mem _ (ih h)

theorem specComponents_keys (seed idx : Int)
    (pools : List (String × List String)) :
    (specComponents seed idx pools).map Prod.fst = pools.map Prod.fst := by
  unfold specComponents
  rw [List.map_map]
  show pools.enum.map (Prod.fst ∘ Prod.snd) = pools.map Prod.fst
  rw [← List.map_map, List.enum_map_snd]

theorem specComponents_values (seed idx : Int)
    (pools : List (String × List String)) (hne : ∀ kv ∈ pools, kv.2 ≠ []) :
    ∀ kvc ∈ specComponents seed idx pools,
      ∃ kv ∈ pools, kv.1 = kvc.1 ∧ kvc.2 ∈ kv.2 := by
  intro kvc hm
  unfold specComponents at hm
  rw [List.mem_map] at hm
  obtain ⟨⟨i, kv⟩, hmem, rfl⟩ := hm
  have hkv : kv ∈ pools := by
    have h2 : kv ∈ pools.enum.map Prod.snd := List.mem_map_of_mem Prod.snd hmem
    rwa [List.enum_map_snd] at h2
  refine ⟨kv, hkv, rfl, ?_⟩
  have hlen : kv.2.length ≠ 0 := by
    simpa [List.length_eq_zero] using hne kv hkv
  rw [List.getD_eq_getElem _ _ (Nat.mod_lt _ (Nat.pos_of_ne_zero hlen))]
  exact List.getElem_mem _

theorem edit_hash_pair (seed idx slot : Int)
    (h1 : int32Min ≤ idx) (h2 : idx ≤ int32Max)
    (h3 : int32Min ≤ slot) (h4 : slot ≤ int32Max) :
    edit_hash seed [idx, slot] = .ok (hashPair seed idx slot) := by
  have e1 : packInt32 idx = some (int32ToBytesLE idx) := by
    unfold packInt32
    rw [if_pos ⟨h1, h2⟩]
  have e2 : packInt32 slot = some (int32ToBytesLE slot) := by
    unfold packInt32
    rw [if_pos ⟨h3, h4⟩]
  have e3 : packInt32s [idx, slot] =
      some (int32ToBytesLE idx ++ int32ToBytesLE slot) := by
    simp [packInt32s, e1, e2, bind, Option.bind]
  unfold edit_hash hashPair
  rw [e3]

theorem buildComponents_ok (seed idx : Int) :
    ∀ (pools : List (String × List String)) (i0 : Nat),
      int32Min ≤ idx → idx ≤ int32Max →
      ((i0 : Int) + (pools.length : Int) ≤ int32Max) →
      (∀ kv ∈ pools, kv.2 ≠ []) →
      buildComponents seed idx i0 pools =
        .ok (specComponentsFrom seed idx i0 pools) := by
  intro pools
  induction pools with
  | nil => intro i0 _ _ _ _; rfl
  | cons kv rest ih =>
    intro i0 hi1 hi2 hlen hne
    cases kv with
    | mk key pool =>
      have hs1 : int32Min ≤ (i0 : Int) + 1 := by
        have := Int.natCast_nonneg i0
        simp only [int32Min]
        omega
      have hs2 : (i0 : Int) + 1 ≤ int32Max := by
        simp only [List.length_cons] at hlen
        push_cast at hlen
        omega
      have hpool : pool.length ≠ 0 := by
        simpa [List.length_eq_zero] using hne (key, pool) (List.mem_cons_self _ _)
      have hrest : ((i0 + 1 : Nat) : Int) + (rest.length : Int) ≤ int32Max := by
        simp only [List.length_cons] at hlen
        push_cast at hlen ⊢
        omega
      have hnerest : ∀ kv2 ∈ rest, kv2.2 ≠ [] :=
        fun kv2 h2 => hne kv2 (List.mem_cons_of_mem _ h2)
      unfold buildComponents
      rw [edit_hash_pair seed idx ((i0 : Int) + 1) hi1 hi2 hs1 hs2]
      simp only [bind, Except.bind]
      rw [dif_neg hpool, ih (i0 + 1) hi1 hi2 hrest hnerest]
      simp only [bind, Except.bind]
      show Except.ok _ = Except.ok _
      congr 1
      show (key, _) :: _ = (key, _) :: _
      congr 2
      show pool.get _ = pool.getD _ ""
      rw [List.getD_eq_getElem _ _ (Nat.mod_lt _ (Nat.pos_of_ne_zero hpool))]
      simp [List.get_eq_getElem, hash_to_index]

theorem selectedTemplate_mem (seed idx : Int) (p : Profile)
    (h : p.templates ≠ []) : selectedTemplate seed idx p ∈ p.templates := by
  unfold selectedTemplate
  have hl : p.templates.length ≠ 0 := by
    simpa [List.length_eq_zero] using h
  rw [List.getD_eq_getElem _ _ (Nat.mod_lt _ (Nat.pos_of_ne_zero hl))]
  exact List.getElem_mem _

theorem generate_eq_cases (seed idx : Int) (p : Profile)
    (h1 : p.templates ≠ []) (h2 : ∀ kv ∈ p.pools, kv.2 ≠ [])
    (h3 : int32Min ≤ idx) (h4 : idx ≤ int32Max)
    (h5 : ((p.pools.length : Nat) : Int) ≤ int32Max) :
    generate_edit_prompt seed idx p =
      match pyFormat (selectedTemplate seed idx p).data
          (specComponents seed idx p.pools) with
      | .ok s => .ok (String.mk s)
      | .error (.keyError _) =>
        .ok (String.mk (formatFallback (selectedTemplate seed idx p).data
          p.pools (specComponents seed idx p.pools)))
      | .error e => .error e := by
  have hz1 : int32Min ≤ (0 : Int) := by simp [int32Min]
  have hz2 : (0 : Int) ≤ int32Max := by simp [int32Max]
  have hl : p.templates.length ≠ 0 := by
    simpa [List.length_eq_zero] using h1
  have hlen0 : ((0 : Nat) : Int) + (p.pools.length : Int) ≤ int32Max := by
    push_cast
    omega
  unfold generate_edit_prompt
  rw [edit_hash_pair seed idx 0 h3 h4 hz1 hz2]
  simp only [bind, Except.bind]
  rw [dif_neg hl]
  rw [buildComponents_ok seed idx p.pools 0 h3 h4 hlen0 h2]
  simp only [bind, Except.bind]
  have htmpl : p.templates.get ⟨hash_to_index (hashPair seed idx 0) p.templates.length,
      Nat.mod_lt _ (Nat.pos_of_ne_zero hl)⟩ = selectedTemplate seed idx p := by
    unfold selectedTemplate hash_to_index
    rw [List.getD_eq_getElem _ _ (Nat.mod_lt _ (Nat.pos_of_ne_zero hl))]
    simp [List.get_eq_getElem]
  rw [htmpl, ← specComponents_eq_from]

theorem foldl_replace_renderTok (comps : List (String × String)) :
    ∀ (pools : List (String × List String)) (parts : List Part)
      (f : String → Option String),
      (∀ part ∈ parts, partGood part) →
      (∀ kv ∈ pools, kv.1.data ≠ [] ∧ wordChars kv.1.data) →
      (∀ kv ∈ pools, noBraceL (compValue comps kv.1).data) →
      (∀ n v0, f n = some v0 → noBraceL v0.data) →
      (∀ kv ∈ pools, f kv.1 = none ∨ f kv.1 = some (compValue comps kv.1)) →
      pools.foldl (fun t kv =>
          replaceAll (braceL :: kv.1.data ++ [braceR]) (compValue comps kv.1).data t)
        (renderTok f parts) =
      renderTok (fun n => if n ∈ pools.map Prod.fst
        then some (compValue comps n) else f n) parts := by
  intro pools
  induction pools with
  | nil =>
    intro parts f _ _ _ _ _
    have hfn : (fun n => if n ∈ ([] : List (String × List String)).map Prod.fst
        then some (compValue comps n) else f n) = f := by
      funext n
      simp
    rw [List.foldl_nil, hfn]
  | cons kv rest ih =>
    intro parts f hparts hkeys hnb hf hcons
    have hkv := hkeys kv (List.mem_cons_self _ _)
    rw [List.foldl_cons,
      replaceAll_renderTok kv.1 (compValue comps kv.1) hkv.1 hkv.2
        (hnb kv (List.mem_cons_self _ _)) parts f hparts hf
        (hcons kv (List.mem_cons_self _ _))]
    rw [ih parts (fun n => if n = kv.1 then some (compValue comps kv.1) else f n)
      hparts
      (fun kv2 h2 => hkeys kv2 (List.mem_cons_of_mem _ h2))
      (fun kv2 h2 => hnb kv2 (List.mem_cons_of_mem _ h2))
      (fun n v0 hnv => by
        replace hnv : (if n = kv.1 then some (compValue comps kv.1) else f n) =
          some v0 := hnv
        by_cases hn : n = kv.1
        · rw [if_pos hn] at hnv
          injection hnv with hvv
          rw [← hvv]
          exact hnb kv (List.mem_cons_self _ _)
        · rw [if_neg hn] at hnv
          exact hf n v0 hnv)
      (fun kv2 h2 => by
        show (if kv2.1 = kv.1 then some (compValue comps kv.1) else f kv2.1) =
            none ∨
          (if kv2.1 = kv.1 then some (compValue comps kv.1) else f kv2.1) =
            some (compValue comps kv2.1)
        by_cases hn : kv2.1 = kv.1
        · rw [if_pos hn, hn]
          exact Or.inr rfl
        · rw [if_neg hn]
          exact hcons kv2 (List.mem_cons_of_mem _ h2))]
    congr 1
    funext n
    by_cases hr : n ∈ rest.map Prod.fst
    · simp [hr]
    · by_cases hn : n = kv.1
      · simp [hr, hn]
      · simp [hr, hn]

/-- The fallback loop's result on a parsed template: each placeholder
naming a pool (in the profile's key list) carries that pool's component
value; every other placeholder stays as its original
`\x7bname\x7d` token. -/
theorem formatFallback_eq_renderTok (template : List Char) (parts : List Part)
    (pools : List (String × List String)) (comps : List (String × String))
    (hp : parseTemplate template = some parts)
    (hkeys : ∀ kv ∈ pools, kv.1.data ≠ [] ∧ wordChars kv.1.data)
    (hnb : ∀ kv ∈ pools, noBraceL (compValue comps kv.1).data) :
    formatFallback template pools comps =
      renderTok (fun n => if n ∈ pools.map Prod.fst
        then some (compValue comps n) else none) parts := by
  obtain ⟨hparts, hraw⟩ := parseTemplate_spec template parts hp
  have h0 : template = renderTok (fun _ => none) parts := by
    rw [renderTok_none_eq_raw, hraw]
  unfold formatFallback
  rw [h0]
  exact foldl_replace_renderTok comps pools parts (fun _ => none) hparts hkeys
    hnb (fun n v0 h => by cases h) (fun kv _ => Or.inl rfl)

theorem firstMissing_none_iff (m : List (String × String)) :
    ∀ parts : List Part,
      (firstMissing m parts = none ↔
        ∀ n, Part.ph n ∈ parts → (m.lookup n).isSome) := by
  intro parts
  induction parts with
  | nil => simp [firstMissing]
  | cons part rest ih =>
    cases part with
    | lit c =>
      rw [firstMissing, ih]
      constructor
      · intro h n hn
        rcases List.mem_cons.mp hn with heq | hn
        · cases heq
        · exact h n hn
      · intro h n hn
        exact h n (List.mem_cons_of_mem _ hn)
    | ph n0 =>
      by_cases h0 : (m.lookup n0).isSome
      · rw [firstMissing, if_pos h0, ih]
        constructor
        · intro h n hn
          rcases List.mem_cons.mp hn with heq | hn
          · injection heq with he
            rw [he]
            exact h0
          · exact h n hn
        · intro h n hn
          exact h n (List.mem_cons_of_mem _ hn)
      · rw [firstMissing, if_neg h0]
        constructor
        · intro h
          cases h
        · intro h
          exact absurd (h n0 (List.mem_cons_self _ _)) h0

/-! ## C1: determinism and totality of generation -/

/-- C1 as amended. For every seed, every index in the signed 32-bit range
that `struct.pack('<i', ...)` accepts (the claim's "every index" fails at
`index = 2^31`, see the counterexample), and every profile with non-empty
templates (each in the data model's placeholder grammar), non-empty pools,
and at most `2^31 - 1` pools: `generate_edit_prompt` returns a string, and
any two calls return the same string — the function is a pure function of
`(seed, index, profile)`. -/
theorem c1_deterministic_total (seed idx : Int) (p : Profile)
    (h1 : p.templates ≠ []) (h2 : ∀ kv ∈ p.pools, kv.2 ≠ [])
    (h3 : int32Min ≤ idx) (h4 : idx ≤ int32Max)
    (h5 : ((p.pools.length : Nat) : Int) ≤ int32Max)
    (h6 : ∀ t ∈ p.templates, (parseTemplate t.data).isSome) :
    ∃ s : String, generate_edit_prompt seed idx p = .ok s ∧
      ∀ s2 : String, generate_edit_prompt seed idx p = .ok s2 → s2 = s := by
  have hgen := generate_eq_cases seed idx p h1 h2 h3 h4 h5
  obtain ⟨parts, hparts⟩ := Option.isSome_iff_exists.mp
    (h6 (selectedTemplate seed idx p) (selectedTemplate_mem seed idx p h1))
  have hfmt : pyFormat (selectedTemplate seed idx p).data
      (specComponents seed idx p.pools) =
      match firstMissing (specComponents seed idx p.pools) parts with
      | some n => .error (.keyError n)
      | none => .ok (renderParts
          (fun n => ((specComponents seed idx p.pools).lookup n).getD "") parts) := by
    unfold pyFormat
    rw [hparts]
  rw [hfmt] at hgen
  cases hfm : firstMissing (specComponents seed idx p.pools) parts with
  | some n =>
    rw [hfm] at hgen
    have hok : generate_edit_prompt seed idx p =
        .ok (String.mk (formatFallback (selectedTemplate seed idx p).data
          p.pools (specComponents seed idx p.pools))) := hgen
    refine ⟨_, hok, fun s2 h => ?_⟩
    rw [hok] at h
    injection h with he
    rw [he]
  | none =>
    rw [hfm] at hgen
    have hok : generate_edit_prompt seed idx p =
        .ok (String.mk (renderParts
          (fun n => ((specComponents seed idx p.pools).lookup n).getD "") parts)) := hgen
    refine ⟨_, hok, fun s2 h => ?_⟩
    rw [hok] at h
    injection h with he
    rw [he]

/-- C1 counterexample. At `index = 2^31` — inside the entry point's
declared index range — the call raises `struct.error` and returns no
string at all, so the claim's universal quantification over every index
fails. -/
theorem c1_counterexample :
    generate_edit_prompt 1 2147483648 profileXY = .error .structError ∧
    (generate_edit_prompt 1 2147483648 profileXY).isOk = false := ⟨rfl, rfl⟩

/-- C1 witness: the amended theorem applied at `seed 7, index 5` on the
spec's scenario profile yields a string result. -/
theorem c1_deterministic_total_witness :
    (generate_edit_prompt 7 5 profileXY).isOk = true := by
  obtain ⟨s, hs, -⟩ := c1_deterministic_total 7 5 profileXY (by decide)
    (by decide) (by decide) (by decide) (by decide) (by decide)
  rw [hs]
  rfl

/-! ## C2: the selection rule -/

/-- The placeholder names of a parsed template, in order. -/
def phNames : List Part → List String
  | [] => []
  | .ph n :: rest => n :: phNames rest
  | .lit _ :: rest => phNames rest

theorem mem_phNames_of_ph_mem (n : String) :
    ∀ parts : List Part, Part.ph n ∈ parts → n ∈ phNames parts := by
  intro parts
  induction parts with
  | nil => intro h; cases h
  | cons part rest ih =>
    intro h
    rcases List.mem_cons.mp h with heq | hmem
    · rw [← heq]
      exact List.mem_cons_self _ _
    · cases part with
      | ph n2 => exact List.mem_cons_of_mem _ (ih hmem)
      | lit c => exact ih hmem

/-- C2 as amended. For indices in the packable signed 32-bit range (the
claim's "every index" fails at `2^31`, see the counterexample), on a
well-formed profile whose template placeholders all name pools:
the template is the one at position `edit_hash(seed,(index,0)) mod
len(templates)`; each pool at 0-based position `i` (1-based `i+1`)
contributes its entry at position `edit_hash(seed,(index,i+1)) mod
len(pool)`; and the generated prompt is the selected template with each
placeholder replaced by the selected component value. -/
theorem c2_selection (seed idx : Int) (p : Profile)
    (h1 : p.templates ≠ []) (h2 : ∀ kv ∈ p.pools, kv.2 ≠ [])
    (h3 : int32Min ≤ idx) (h4 : idx ≤ int32Max)
    (h5 : ((p.pools.length : Nat) : Int) ≤ int32Max)
    (h6 : ∀ t ∈ p.templates, (parseTemplate t.data).isSome)
    (h7 : ∀ t ∈ p.templates,
      ∀ n ∈ phNames ((parseTemplate t.data).getD []), n ∈ p.pools.map Prod.fst) :
    ∃ parts : List Part,
      edit_hash seed [idx, 0] = .ok (hashPair seed idx 0) ∧
      p.templates[hashPair seed idx 0 % p.templates.length]? =
        some (selectedTemplate seed idx p) ∧
      parseTemplate (selectedTemplate seed idx p).data = some parts ∧
      buildComponents seed idx 0 p.pools = .ok (specComponents seed idx p.pools) ∧
      (∀ (i : Nat) (kv : String × List String), (i, kv) ∈ p.pools.enum →
        edit_hash seed [idx, (i : Int) + 1] =
          .ok (hashPair seed idx ((i : Int) + 1)) ∧
        (kv.1, kv.2.getD (hashPair seed idx ((i : Int) + 1) % kv.2.length) "")
          ∈ specComponents seed idx p.pools) ∧
      generate_edit_prompt seed idx p =
        .ok (String.mk (renderParts
          (fun n => ((specComponents seed idx p.pools).lookup n).getD "") parts)) := by
  have hz1 : int32Min ≤ (0 : Int) := by simp [int32Min]
  have hz2 : (0 : Int) ≤ int32Max := by simp [int32Max]
  have hl : p.templates.length ≠ 0 := by
    simpa [List.length_eq_zero] using h1
  have hlen0 : ((0 : Nat) : Int) + (p.pools.length : Int) ≤ int32Max := by
    push_cast
    omega
  obtain ⟨parts, hparts⟩ := Option.isSome_iff_exists.mp
    (h6 (selectedTemplate seed idx p) (selectedTemplate_mem seed idx p h1))
  refine ⟨parts, edit_hash_pair seed idx 0 h3 h4 hz1 hz2, ?_, hparts, ?_, ?_, ?_⟩
  · have hlt : hashPair seed idx 0 % p.templates.length < p.templates.length :=
      Nat.mod_lt _ (Nat.pos_of_ne_zero hl)
    rw [List.getElem?_eq_getElem hlt]
    unfold selectedTemplate
    rw [List.getD_eq_getElem _ _ hlt]
  · rw [specComponents_eq_from]
    exact buildComponents_ok seed idx p.pools 0 h3 h4 hlen0 h2
  · intro i kv henum
    have hi : i < p.pools.length := by
      have := List.mk_mem_enum_iff_getElem?.mp henum
      exact (List.getElem?_eq_some.mp this).1
    have hs1 : int32Min ≤ (i : Int) + 1 := by
      have := Int.natCast_nonneg i
      simp only [int32Min]
      omega
    have hs2 : (i : Int) + 1 ≤ int32Max := by
      have : (i : Int) < (p.pools.length : Int) := by exact_mod_cast hi
      omega
    refine ⟨edit_hash_pair seed idx ((i : Int) + 1) h3 h4 hs1 hs2, ?_⟩
    exact List.mem_map_of_mem _ henum
  · have hgen := generate_eq_cases seed idx p h1 h2 h3 h4 h5
    have hfm : firstMissing (specComponents seed idx p.pools) parts = none := by
      rw [firstMissing_none_iff]
      intro n hn
      apply lookup_isSome_of_mem_keys
      rw [specComponents_keys]
      refine h7 (selectedTemplate seed idx p) (selectedTemplate_mem seed idx p h1)
        n ?_
      rw [hparts]
      exact mem_phNames_of_ph_mem n parts hn
    have hfmt : pyFormat (selectedTemplate seed idx p).data
        (specComponents seed idx p.pools) =
        match firstMissing (specComponents seed idx p.pools) parts with
        | some n => .error (.keyError n)
        | none => .ok (renderParts
            (fun n => ((specComponents seed idx p.pools).lookup n).getD "") parts) := by
      unfold pyFormat
      rw [hparts]
    rw [hfm] at hfmt
    have hfmt2 : pyFormat (selectedTemplate seed idx p).data
        (specComponents seed idx p.pools) =
        .ok (renderParts
          (fun n => ((specComponents seed idx p.pools).lookup n).getD "") parts) := hfmt
    rw [hfmt2] at hgen
    exact hgen

set_option maxRecDepth 40000 in
/-- C2 counterexample. At `index = 2^31` (inside the declared index range)
the hash and hence the generator raise `struct.error`: no template or
component is selected at all. -/
theorem c2_counterexample :
    edit_hash 42 [2147483648, 0] = .error .structError ∧
    generate_edit_prompt 42 2147483648 profileXY = .error .structError :=
  ⟨rfl, rfl⟩

set_option maxRecDepth 40000 in
/-- C2 witness: on the spec's scenario profile at `(seed, index) =
(42, 0)` the amended selection rule yields the concrete prompt `"C r"`. -/
theorem c2_selection_witness :
    generate_edit_prompt 42 0 profileXY = .ok "C r" := by
  obtain ⟨parts, -, -, hp, -, -, hgen⟩ := c2_selection 42 0 profileXY
    (by decide) (by decide) (by decide) (by decide) (by decide) (by decide)
    (by decide)
  have hconc : parseTemplate (selectedTemplate 42 0 profileXY).data =
      some [Part.lit 'C', Part.lit ' ', Part.ph "y"] := by decide
  rw [hconc] at hp
  injection hp with hp2
  rw [← hp2] at hgen
  rw [hgen]
  decide

/-! ## C3: partial substitution on an unresolved placeholder -/

theorem containsSub_correct (pat : List Char) :
    ∀ s : List Char, (containsSub pat s = true ↔ pat <:+: s) := by
  intro s
  induction s with
  | nil =>
    simp only [containsSub, List.isEmpty_iff]
    constructor
    · intro h
      rw [h]
    · intro h
      exact List.eq_nil_of_infix_nil h
  | cons c rest ih =>
    simp only [containsSub, Bool.or_eq_true, List.isPrefixOf_iff_prefix, ih]
    rw [List.infix_cons_iff]

theorem partTok_infix (f : String → Option String) (parts : List Part)
    (part : Part) (h : part ∈ parts) :
    partTok f part <:+: renderTok f parts := by
  obtain ⟨l1, l2, rfl⟩ := List.append_of_mem h
  unfold renderTok
  refine ⟨(l1.map (partTok f)).flatten, (l2.map (partTok f)).flatten, ?_⟩
  simp

/-- C3 as amended. On a profile whose pool keys are word-character names
and whose pool entries contain no opening brace (with brace-containing
entries the sequential `str.replace` loop can substitute inside
previously substituted values — see the counterexample), when the selected
template is in the placeholder grammar and references some `missing` name
that is not a pool key: generation does not fail; the output is the
template with every placeholder that names a pool replaced by that pool's
selected component value and every other placeholder left as the visible
token `\x7bname\x7d`; the unresolved token for `missing` appears as a
substring of the output; and the component map covers every pool key, so
the source's `"[key]"` replacement default is dead code. -/
theorem c3_partial_fallback (seed idx : Int) (p : Profile) (parts : List Part)
    (missing : String)
    (h1 : p.templates ≠ []) (h2 : ∀ kv ∈ p.pools, kv.2 ≠ [])
    (h3 : int32Min ≤ idx) (h4 : idx ≤ int32Max)
    (h5 : ((p.pools.length : Nat) : Int) ≤ int32Max)
    (hparse : parseTemplate (selectedTemplate seed idx p).data = some parts)
    (hkeys : ∀ kv ∈ p.pools, kv.1.data ≠ [] ∧ wordChars kv.1.data)
    (hvals : ∀ kv ∈ p.pools, ∀ v ∈ kv.2, noBraceL v.data)
    (hmiss : Part.ph missing ∈ parts)
    (hnot : missing ∉ p.pools.map Prod.fst) :
    generate_edit_prompt seed idx p =
      .ok (String.mk (renderTok (fun n => if n ∈ p.pools.map Prod.fst
        then some (compValue (specComponents seed idx p.pools) n) else none)
        parts)) ∧
    containsSub (braceL :: missing.data ++ [braceR])
      (renderTok (fun n => if n ∈ p.pools.map Prod.fst
        then some (compValue (specComponents seed idx p.pools) n) else none)
        parts) = true ∧
    (∀ n, n ∈ p.pools.map Prod.fst →
      ((specComponents seed idx p.pools).lookup n).isSome) := by
  have hcover : ∀ n, n ∈ p.pools.map Prod.fst →
      ((specComponents seed idx p.pools).lookup n).isSome := by
    intro n hn
    apply lookup_isSome_of_mem_keys
    rw [specComponents_keys]
    exact hn
  have hnb : ∀ kv ∈ p.pools,
      noBraceL (compValue (specComponents seed idx p.pools) kv.1).data := by
    intro kv hkv
    have hs : ((specComponents seed idx p.pools).lookup kv.1).isSome :=
      hcover kv.1 (List.mem_map_of_mem Prod.fst hkv)
    obtain ⟨v, hv⟩ := Option.isSome_iff_exists.mp hs
    have hmemv : (kv.1, v) ∈ specComponents seed idx p.pools :=
      mem_of_lookup_eq_some _ _ _ hv
    obtain ⟨kv2, hkv2, -, hvin⟩ :=
      specComponents_values seed idx p.pools h2 (kv.1, v) hmemv
    unfold compValue
    rw [hv]
    exact hvals kv2 hkv2 v hvin
  have hgen := generate_eq_cases seed idx p h1 h2 h3 h4 h5
  have hmisslookup : ((specComponents seed idx p.pools).lookup missing).isSome =
      false := by
    by_contra hc
    rw [Bool.not_eq_false] at hc
    obtain ⟨v, hv⟩ := Option.isSome_iff_exists.mp hc
    have : (missing, v) ∈ specComponents seed idx p.pools :=
      mem_of_lookup_eq_some _ _ _ hv
    have hmk : missing ∈ (specComponents seed idx p.pools).map Prod.fst :=
      List.mem_map_of_mem Prod.fst this
    rw [specComponents_keys] at hmk
    exact hnot hmk
  have hfmne : firstMissing (specComponents seed idx p.pools) parts ≠ none := by
    intro hc
    rw [firstMissing_none_iff] at hc
    have := hc missing hmiss
    rw [hmisslookup] at this
    cases this
  obtain ⟨m0, hm0⟩ := Option.ne_none_iff_exists'.mp hfmne
  have hfmt : pyFormat (selectedTemplate seed idx p).data
      (specComponents seed idx p.pools) =
      match firstMissing (specComponents seed idx p.pools) parts with
      | some n => .error (.keyError n)
      | none => .ok (renderParts
          (fun n => ((specComponents seed idx p.pools).lookup n).getD "") parts) := by
    unfold pyFormat
    rw [hparse]
  rw [hm0] at hfmt
  have hfmt2 : pyFormat (selectedTemplate seed idx p).data
      (specComponents seed idx p.pools) = .error (.keyError m0) := hfmt
  rw [hfmt2] at hgen
  have hfall := formatFallback_eq_renderTok (selectedTemplate seed idx p).data
    parts p.pools (specComponents seed idx p.pools) hparse hkeys hnb
  have hok : generate_edit_prompt seed idx p =
      .ok (String.mk (formatFallback (selectedTemplate seed idx p).data
        p.pools (specComponents seed idx p.pools))) := hgen
  rw [hfall] at hok
  refine ⟨hok, ?_, hcover⟩
  rw [containsSub_correct]
  have htok : partTok (fun n => if n ∈ p.pools.map Prod.fst
      then some (compValue (specComponents seed idx p.pools) n) else none)
      (Part.ph missing) = braceL :: missing.data ++ [braceR] := by
    simp only [partTok]
    rw [if_neg hnot]
  rw [← htok]
  exact partTok_infix _ parts (Part.ph missing) hmiss

set_option maxRecDepth 40000 in
/-- C3 witness: on the single-template profile referencing the undefined
pool `ghost`, generation succeeds, `\x7bx\x7d` is substituted by the
selected value `v`, and the unresolved `\x7bghost\x7d` token is visible in
the output. -/
theorem c3_partial_fallback_witness :
    generate_edit_prompt 0 0 profileGhost = .ok "v and {ghost}" ∧
    containsSub (braceL :: "ghost".data ++ [braceR]) "v and {ghost}".data = true := by
  obtain ⟨hgen, hmark, -⟩ := c3_partial_fallback 0 0 profileGhost
    [Part.ph "x", Part.lit ' ', Part.lit 'a', Part.lit 'n', Part.lit 'd',
     Part.lit ' ', Part.ph "ghost"] "ghost"
    (by decide) (by decide) (by decide) (by decide) (by decide) (by decide)
    (by decide) (by decide) (by decide) (by decide)
  constructor
  · rw [hgen]
    decide
  · decide

set_option maxRecDepth 40000 in
/-- C3 counterexample. On a profile whose pool entry itself contains
placeholder syntax (pool `a` holds the entry `\x7bb\x7d`), the sequential
replace loop substitutes inside the previously substituted value: the
selected value of pool `a` is `\x7bb\x7d`, yet the output is
`"B \x7bghost\x7d"`, which does not contain it — so the claim's "every
placeholder that names an existing pool is substituted with its selected
value" fails as stated; and no bracketed `[ghost]` marker appears either,
the unresolved placeholder simply stays as `\x7bghost\x7d`. -/
theorem c3_counterexample :
    buildComponents 0 0 0 profileBrace.pools = .ok [("a", "{b}"), ("b", "B")] ∧
    generate_edit_prompt 0 0 profileBrace = .ok "B {ghost}" ∧
    containsSub "{b}".data "B {ghost}".data = false ∧
    containsSub "[ghost]".data "B {ghost}".data = false :=
  ⟨by decide, by decide, by decide, by decide⟩

end ZeroEDIT
